import Mathlib

/-!
ElementHandle (Source/Core/ElementHandle.cpp).

A shallow embedding of the drag handle of libRocket / RmlUi: the constructor,
`OnAttributeChange` and `ProcessEvent` of `Rocket::Core::ElementHandle`, as
functions on the handle's member variables and on the part of the document the
handle reads and writes.

Conventions of the embedding.

* `Element*` is `Option ElementRef`: `none` is `NULL`, `some e` points at the
  element with identity `e`.
* `int` is `Int`. Signed overflow is undefined behaviour in C++, so the code has
  a meaning only where the mathematical result is the result.
* `float` is the carrier of a `FloatArith`, a parameter of every definition: the
  conversion from `int`, the addition, the comparison and `Math::RealToInteger`
  are not defined in ElementHandle.cpp and nothing is assumed about them beyond
  the two order laws stated in `FloatArith`.
* Calls into collaborators that have an effect (`Element::ProcessEvent`,
  `SetProperty`, `DispatchEvent`) are appended to `World.calls` in program
  order; `SetProperty` also updates the property store of the element. Layout
  (offsets and boxes) is recomputed by the host between events, not by
  `SetProperty`.
-/

namespace Rocket
namespace Core

/-- Arithmetic of the C++ type `float`, as far as ElementHandle.cpp uses it. -/
structure FloatArith where
  /-- Values of type `float`. -/
  F : Type
  /-- Conversion `(float) n` of an `int`. -/
  ofInt : Int → F
  /-- Addition of two `float`s. -/
  add : F → F → F
  /-- Comparison `a > b`. -/
  gt : F → F → Bool
  /-- `Math::RealToInteger`. -/
  RealToInteger : F → Int
  /-- `a > b` excludes `b > a`. -/
  gt_asymm : ∀ a b, gt a b = true → gt b a = false
  /-- Conversion from `int` is monotone: `(float) m > (float) n` only if `m > n`. -/
  gt_ofInt : ∀ m n, gt (ofInt m) (ofInt n) = true → n < m

/-- Modelled from the spec: Math::Max (declared in Math.h, absent from the
sources), the larger of its two arguments, used to clamp a size at 0. -/
def Math.Max (A : FloatArith) (a b : A.F) : A.F :=
  if A.gt a b then a else b

/-- Identity of an element of the document. -/
abbrev ElementRef := Nat

/-- Vector2i. -/
structure Vector2i where
  x : Int
  y : Int
deriving DecidableEq, Repr

/-- Vector2f. -/
structure Vector2f (A : FloatArith) where
  x : A.F
  y : A.F

/-- EventId, with the three ids ElementHandle.cpp names. -/
inductive EventId where
  | Dragstart
  | Drag
  | Handledrag
  | Other (n : Nat)
deriving DecidableEq, Repr

/-- PropertyId, with the ids ElementHandle.cpp names. -/
inductive PropertyId where
  | Drag
  | Left
  | Top
  | Width
  | Height
  | MarginTop
  | MarginRight
  | MarginBottom
  | MarginLeft
  | Other (n : Nat)
deriving DecidableEq, Repr

/-- Property::Unit, with the two units ElementHandle.cpp names. -/
inductive Property.Unit where
  | KEYWORD
  | PX
  | OTHER (n : Nat)
deriving DecidableEq, Repr

/-- Variant: the value of a property, as built from an `int`, a `float` or a
string. -/
inductive Variant (A : FloatArith) where
  | INT (n : Int)
  | FLOAT (x : A.F)
  | STRING (s : String)

/-- Property: a value and its unit, `Property(value, unit)`. -/
structure Property (A : FloatArith) where
  value : Variant A
  unit : Property.Unit

/-- Box::Edge. -/
inductive Box.Edge where
  | TOP
  | RIGHT
  | BOTTOM
  | LEFT
deriving DecidableEq, Repr

/-- Box, as far as the handle reads it: `GetSize(Box::CONTENT)` and
`GetEdge(Box::MARGIN, edge)`. -/
structure Box (A : FloatArith) where
  /-- `GetSize(Box::CONTENT)`. -/
  content : Vector2f A
  /-- `GetEdge(Box::MARGIN, edge)`. -/
  margin : Box.Edge → A.F

/-- An element of the document, as far as the handle reads and writes it. -/
structure Element (A : FloatArith) where
  /-- `GetOffsetLeft()`. -/
  offset_left : A.F
  /-- `GetOffsetTop()`. -/
  offset_top : A.F
  /-- `GetBox()`. -/
  box : Box A
  /-- The element's properties: written by `SetProperty`, read by
  `GetMarginProperties`. -/
  properties : PropertyId → Property A

/-- Dictionary: the parameters of an event. Only `int` entries are read or
written by ElementHandle.cpp. -/
abbrev Dictionary := List (String × Int)

/-- The assignment `parameters[key] = value`. -/
def Dictionary.set (d : Dictionary) (key : String) (value : Int) : Dictionary :=
  if d.any (fun p => p.1 == key) then
    d.map (fun p => if p.1 == key then (key, value) else p)
  else
    d ++ [(key, value)]

/-- Event: its target element, its id and its parameters. -/
structure Event where
  target : Option ElementRef
  id : EventId
  parameters : Dictionary
deriving DecidableEq, Repr

/-- The call `event.GetParameter< int >(key, default_value)`. -/
def Event.GetParameter (event : Event) (key : String) (default_value : Int) : Int :=
  (event.parameters.lookup key).getD default_value

/-- A call into a collaborator that has an effect. -/
inductive Call (A : FloatArith) where
  | Element_OnAttributeChange (changed_attributes : List String)
  | Element_ProcessEvent (event : Event)
  | SetPropertyString (element : ElementRef) (id : PropertyId) (value : String)
  | SetProperty (element : ElementRef) (id : PropertyId) (property : Property A)
  | DispatchEvent (source : ElementRef) (id : EventId) (parameters : Dictionary)

/-- The document and the handle's own element, as the handle sees them. -/
structure World (A : FloatArith) where
  /-- The elements, by identity. -/
  elements : ElementRef → Element A
  /-- Whether `GetOwnerDocument()` of the handle is not `NULL`. -/
  owner_document : Bool
  /-- The attributes of the handle. -/
  attributes : String → Option String
  /-- The lookup `GetElementById`. -/
  element_ids : String → Option ElementRef
  /-- The calls made so far, oldest first. -/
  calls : List (Call A)

/-- The call `GetAttribute< String >(name, default_value)` on the handle. -/
def World.GetAttribute {A : FloatArith} (w : World A) (name : String)
    (default_value : String) : String :=
  (w.attributes name).getD default_value

/-- The call `GetElementById(id)`. -/
def World.GetElementById {A : FloatArith} (w : World A) (id : String) :
    Option ElementRef :=
  w.element_ids id

/-- The call `element->SetProperty(id, property)`. -/
def World.SetProperty {A : FloatArith} (w : World A) (element : ElementRef)
    (id : PropertyId) (property : Property A) : World A :=
  { w with
    elements := fun e =>
      if e = element then
        { w.elements e with
          properties := fun i => if i = id then property else (w.elements e).properties i }
      else w.elements e
    calls := w.calls ++ [Call.SetProperty element id property] }

/-- The call `DispatchEvent(id, parameters)` on the element `source`. -/
def World.DispatchEvent {A : FloatArith} (w : World A) (source : ElementRef)
    (id : EventId) (parameters : Dictionary) : World A :=
  { w with calls := w.calls ++ [Call.DispatchEvent source id parameters] }

/-- The call `Element::ProcessEvent(event)` of the base class. -/
def World.Element_ProcessEvent {A : FloatArith} (w : World A) (event : Event) : World A :=
  { w with calls := w.calls ++ [Call.Element_ProcessEvent event] }

/-- The call `Element::OnAttributeChange(changed_attributes)` of the base
class. -/
def World.Element_OnAttributeChange {A : FloatArith} (w : World A)
    (changed_attributes : List String) : World A :=
  { w with calls := w.calls ++ [Call.Element_OnAttributeChange changed_attributes] }

/-- The member variables of an ElementHandle, and the identity of the handle
(`this`). -/
structure ElementHandle (A : FloatArith) where
  self : ElementRef
  drag_start : Vector2i
  move_original_position : Vector2f A
  size_original_size : Vector2f A
  move_target : Option ElementRef
  size_target : Option ElementRef
  initialised : Bool

namespace ElementHandle

variable {A : FloatArith}

/-- The constructor `ElementHandle::ElementHandle`. The two `Vector2f` members
are default-constructed; their values are parameters. -/
def new (self : ElementRef) (move_original_position size_original_size : Vector2f A)
    (w : World A) : ElementHandle A × World A :=
  ({ self := self
     drag_start := ⟨0, 0⟩
     move_original_position := move_original_position
     size_original_size := size_original_size
     move_target := none
     size_target := none
     initialised := false },
   { w with calls := w.calls ++ [Call.SetPropertyString self PropertyId.Drag "drag"] })

/-- The method `ElementHandle::OnAttributeChange`. -/
def OnAttributeChange (h : ElementHandle A) (w : World A)
    (changed_attributes : List String) : ElementHandle A × World A :=
  let w := w.Element_OnAttributeChange changed_attributes
  if changed_attributes.contains "move_target" || changed_attributes.contains "size_target" then
    ({ h with initialised := false, move_target := none, size_target := none }, w)
  else
    (h, w)

/-- The block under `// Lazy initialisation.` of ProcessEvent (lines 73-84). -/
def LazyInitialisation (h : ElementHandle A) (w : World A) : ElementHandle A :=
  if !h.initialised && w.owner_document then
    let move_target_name := w.GetAttribute "move_target" ""
    let h := if !move_target_name.isEmpty then
        { h with move_target := w.GetElementById move_target_name } else h
    let size_target_name := w.GetAttribute "size_target" ""
    let h := if !size_target_name.isEmpty then
        { h with size_target := w.GetElementById size_target_name } else h
    { h with initialised := true }
  else h

/-- The branch `event == EventId::Dragstart` of ProcessEvent (lines 88-99). -/
def Dragstart (h : ElementHandle A) (w : World A) (event : Event) : ElementHandle A :=
  let h := { h with
    drag_start := ⟨event.GetParameter "mouse_x" 0, event.GetParameter "mouse_y" 0⟩ }
  let h := match h.move_target with
    | some t =>
      { h with move_original_position := ⟨(w.elements t).offset_left, (w.elements t).offset_top⟩ }
    | none => h
  match h.size_target with
  | some t => { h with size_original_size := (w.elements t).box.content }
  | none => h

/-- The block `if (move_target)` of the Drag branch (lines 108-112). -/
def DragMove (h : ElementHandle A) (w : World A) (x y : Int) : World A :=
  match h.move_target with
  | some t =>
    let w := w.SetProperty t PropertyId.Left
      ⟨Variant.INT (A.RealToInteger (A.add h.move_original_position.x (A.ofInt x))),
       Property.Unit.PX⟩
    w.SetProperty t PropertyId.Top
      ⟨Variant.INT (A.RealToInteger (A.add h.move_original_position.y (A.ofInt y))),
       Property.Unit.PX⟩
  | none => w

/-- The block `if (size_target)` of the Drag branch (lines 114-134).
`GetMarginProperties` is declared outside ElementHandle.cpp; its four
arguments receive the margin-top, margin-bottom, margin-left and margin-right
properties, as the names of the variables passed to it say. `GetBox()` is the
box of the last layout: `SetProperty` does not change it. -/
def DragSize (h : ElementHandle A) (w : World A) (x y : Int) : World A :=
  match h.size_target with
  | some t =>
    let margin_top := (w.elements t).properties PropertyId.MarginTop
    let margin_bottom := (w.elements t).properties PropertyId.MarginBottom
    let margin_left := (w.elements t).properties PropertyId.MarginLeft
    let margin_right := (w.elements t).properties PropertyId.MarginRight
    let w := if margin_top.unit = Property.Unit.KEYWORD then
        w.SetProperty t PropertyId.MarginTop
          ⟨Variant.FLOAT (A.ofInt (A.RealToInteger ((w.elements t).box.margin Box.Edge.TOP))),
           Property.Unit.PX⟩
      else w
    let w := if margin_right.unit = Property.Unit.KEYWORD then
        w.SetProperty t PropertyId.MarginRight
          ⟨Variant.FLOAT (A.ofInt (A.RealToInteger ((w.elements t).box.margin Box.Edge.RIGHT))),
           Property.Unit.PX⟩
      else w
    let w := if margin_bottom.unit = Property.Unit.KEYWORD then
        w.SetProperty t PropertyId.MarginBottom
          ⟨Variant.FLOAT (A.ofInt (A.RealToInteger ((w.elements t).box.margin Box.Edge.BOTTOM))),
           Property.Unit.PX⟩
      else w
    let w := if margin_left.unit = Property.Unit.KEYWORD then
        w.SetProperty t PropertyId.MarginLeft
          ⟨Variant.FLOAT (A.ofInt (A.RealToInteger ((w.elements t).box.margin Box.Edge.LEFT))),
           Property.Unit.PX⟩
      else w
    let new_x := A.RealToInteger (A.add h.size_original_size.x (A.ofInt x))
    let new_y := A.RealToInteger (A.add h.size_original_size.y (A.ofInt y))
    let w := w.SetProperty t PropertyId.Width
      ⟨Variant.FLOAT (Math.Max A (A.ofInt new_x) (A.ofInt 0)), Property.Unit.PX⟩
    w.SetProperty t PropertyId.Height
      ⟨Variant.FLOAT (Math.Max A (A.ofInt new_y) (A.ofInt 0)), Property.Unit.PX⟩
  | none => w

/-- The branch `event == EventId::Drag` of ProcessEvent (lines 103-139). -/
def Drag (h : ElementHandle A) (w : World A) (event : Event) : World A :=
  let x := event.GetParameter "mouse_x" 0 - h.drag_start.x
  let y := event.GetParameter "mouse_y" 0 - h.drag_start.y
  let w := DragMove h w x y
  let w := DragSize h w x y
  let parameters : Dictionary := []
  let parameters := parameters.set "handle_x" x
  let parameters := parameters.set "handle_y" y
  w.DispatchEvent h.self EventId.Handledrag parameters

/-- The method `ElementHandle::ProcessEvent`. -/
def ProcessEvent (h : ElementHandle A) (w : World A) (event : Event) :
    ElementHandle A × World A :=
  let w := w.Element_ProcessEvent event
  if event.target = some h.self then
    let h := LazyInitialisation h w
    if event.id = EventId.Dragstart then
      (Dragstart h w event, w)
    else if event.id = EventId.Drag then
      (h, Drag h w event)
    else
      (h, w)
  else
    (h, w)

end ElementHandle

/-- Modelled from the spec: Math::RealToInteger and the arithmetic of `float`,
for the examples. The values are rationals, the operations are exact, and
`RealToInteger` rounds to the nearest integer. The examples use small
integers and the value 10.25 only, which single precision represents exactly
and which rounding to nearest and truncation send to the same integer. -/
def ratArith : FloatArith where
  F := ℚ
  ofInt := fun n => (n : ℚ)
  add := fun a b => a + b
  gt := fun a b => decide (b < a)
  RealToInteger := fun a => ⌊a + 1 / 2⌋
  gt_asymm := by
    intro a b h
    simp only [decide_eq_true_eq, decide_eq_false_iff_not, not_lt] at *
    exact le_of_lt h
  gt_ofInt := by
    intro m n h
    simp only [decide_eq_true_eq] at h
    exact_mod_cast h

/-- One call the host makes on the handle, in the world as it is at that
moment. -/
inductive Step (A : FloatArith) where
  | OnAttributeChange (w : World A) (changed_attributes : List String)
  | ProcessEvent (w : World A) (event : Event)

/-- The handle after one call of the host. -/
def ElementHandle.step {A : FloatArith} (h : ElementHandle A) : Step A → ElementHandle A
  | Step.OnAttributeChange w changed_attributes => (h.OnAttributeChange w changed_attributes).1
  | Step.ProcessEvent w event => (h.ProcessEvent w event).1

/-- The handle after a sequence of calls of the host, oldest first. -/
def ElementHandle.run {A : FloatArith} (h : ElementHandle A) : List (Step A) → ElementHandle A
  | [] => h
  | s :: rest => (h.step s).run rest

/-- A state of the handle that the constructor followed by some sequence of
calls of the host produces. -/
def ElementHandle.Reachable {A : FloatArith} (h : ElementHandle A) : Prop :=
  ∃ (self : ElementRef) (p q : Vector2f A) (w : World A) (steps : List (Step A)),
    (ElementHandle.new self p q w).1.run steps = h

/-- The calls an event adds to the calls of the world `w` it was processed
in. -/
def ElementHandle.callsOf {A : FloatArith} (h : ElementHandle A) (w : World A)
    (event : Event) : List (Call A) :=
  (h.ProcessEvent w event).2.calls.drop w.calls.length

/-- A write of Left, Top, Width or Height, or a dispatched event. -/
def Call.isGeometryOrDispatch {A : FloatArith} : Call A → Bool
  | Call.SetProperty _ id _ =>
    id = PropertyId.Left || id = PropertyId.Top || id = PropertyId.Width || id = PropertyId.Height
  | Call.DispatchEvent _ _ _ => true
  | _ => false

/-- The margin property of an edge of the box. -/
def marginProperty : Box.Edge → PropertyId
  | Box.Edge.TOP => PropertyId.MarginTop
  | Box.Edge.RIGHT => PropertyId.MarginRight
  | Box.Edge.BOTTOM => PropertyId.MarginBottom
  | Box.Edge.LEFT => PropertyId.MarginLeft

/-- The property `Property(Math::RealToInteger(original + delta), Property::PX)`
written to Left and Top (lines 110-111). -/
def movedPosition (A : FloatArith) (original : A.F) (delta : Int) : Property A :=
  ⟨Variant.INT (A.RealToInteger (A.add original (A.ofInt delta))), Property.Unit.PX⟩

/-- The property `Property((float) Math::RealToInteger(edge), Property::PX)`
written to an `auto` margin (lines 121-127). -/
def frozenMargin (A : FloatArith) (edge : A.F) : Property A :=
  ⟨Variant.FLOAT (A.ofInt (A.RealToInteger edge)), Property.Unit.PX⟩

/-- The property written to Width and Height (lines 129-133). -/
def clampedSize (A : FloatArith) (original : A.F) (delta : Int) : Property A :=
  ⟨Variant.FLOAT (Math.Max A (A.ofInt (A.RealToInteger (A.add original (A.ofInt delta))))
    (A.ofInt 0)), Property.Unit.PX⟩

/-- The calls of the block `if (move_target)` of the Drag branch, in order. -/
def moveWrites {A : FloatArith} (h : ElementHandle A) (x y : Int) : List (Call A) :=
  match h.move_target with
  | some t =>
    [Call.SetProperty t PropertyId.Left (movedPosition A h.move_original_position.x x),
     Call.SetProperty t PropertyId.Top (movedPosition A h.move_original_position.y y)]
  | none => []

/-- The write that freezes the margin of an edge of `t`, if that margin is a
keyword in the world `w`. -/
def marginWrite {A : FloatArith} (w : World A) (t : ElementRef) (edge : Box.Edge) :
    List (Call A) :=
  if ((w.elements t).properties (marginProperty edge)).unit = Property.Unit.KEYWORD then
    [Call.SetProperty t (marginProperty edge) (frozenMargin A ((w.elements t).box.margin edge))]
  else []

/-- The calls of the block `if (size_target)` of the Drag branch, in order. -/
def sizeWrites {A : FloatArith} (h : ElementHandle A) (w : World A) (x y : Int) :
    List (Call A) :=
  match h.size_target with
  | some t =>
    marginWrite w t Box.Edge.TOP ++ (marginWrite w t Box.Edge.RIGHT ++
      (marginWrite w t Box.Edge.BOTTOM ++ (marginWrite w t Box.Edge.LEFT ++
        [Call.SetProperty t PropertyId.Width (clampedSize A h.size_original_size.x x),
         Call.SetProperty t PropertyId.Height (clampedSize A h.size_original_size.y y)])))
  | none => []

/-- The element the attribute `name` of the handle resolves to in the world
`w`, as lines 75-81 look it up: null when the attribute is empty or absent,
the result of `GetElementById` otherwise (null when the lookup fails). -/
def World.resolve {A : FloatArith} (w : World A) (name : String) : Option ElementRef :=
  if w.GetAttribute name "" = "" then none else w.GetElementById (w.GetAttribute name "")

/-- The element `e` is what the attribute `name` of the handle `self` resolved
to at one of the calls in `steps`: an event targeted at the handle, processed
while the handle had an owner document and the attribute was not empty, at
which `GetElementById` of the attribute's value gave `e`. -/
def ResolvedIn {A : FloatArith} (self : ElementRef) (name : String) (steps : List (Step A))
    (e : ElementRef) : Prop :=
  ∃ (w : World A) (event : Event), Step.ProcessEvent w event ∈ steps ∧
    event.target = some self ∧ w.owner_document = true ∧ w.GetAttribute name "" ≠ "" ∧
    w.GetElementById (w.GetAttribute name "") = some e

/-- A call of the host that reports "move_target" or "size_target" as
changed. -/
def Step.isRebind {A : FloatArith} : Step A → Bool
  | Step.OnAttributeChange _ changed_attributes =>
    changed_attributes.contains "move_target" || changed_attributes.contains "size_target"
  | Step.ProcessEvent _ _ => false

/-- The anchor of the handle `g` is the one a drag-start `event`, processed in
the world `w`, captures: the pointer of the event, and for each target `g`
holds, the offset position, respectively the content size, that target has in
`w`. -/
def CapturedAt {A : FloatArith} (g : ElementHandle A) (w : World A) (event : Event) : Prop :=
  g.drag_start = ⟨event.GetParameter "mouse_x" 0, event.GetParameter "mouse_y" 0⟩ ∧
  (∀ t, g.move_target = some t →
    g.move_original_position = ⟨(w.elements t).offset_left, (w.elements t).offset_top⟩) ∧
  (∀ t, g.size_target = some t → g.size_original_size = (w.elements t).box.content)

/-- The anchor of the handle `g` was captured at one of the calls in `steps`,
a drag-start targeted at the handle. -/
def CapturedIn {A : FloatArith} (g : ElementHandle A) (steps : List (Step A)) : Prop :=
  ∃ (w : World A) (event : Event), Step.ProcessEvent w event ∈ steps ∧
    event.target = some g.self ∧ event.id = EventId.Dragstart ∧ CapturedAt g w event

/-- A write of Left or Top. -/
def Call.isMoveWrite {A : FloatArith} : Call A → Bool
  | Call.SetProperty _ id _ => id = PropertyId.Left || id = PropertyId.Top
  | _ => false

/-- A write of Width, Height or a margin. -/
def Call.isSizeWrite {A : FloatArith} : Call A → Bool
  | Call.SetProperty _ id _ =>
    id = PropertyId.Width || id = PropertyId.Height || id = PropertyId.MarginTop ||
      id = PropertyId.MarginRight || id = PropertyId.MarginBottom || id = PropertyId.MarginLeft
  | _ => false

/-! ## Example documents -/

/-- An element with offset (20, 30), content size (100, 50), margins of 0 and
every property in pixels. -/
def box1 : Element ratArith :=
  { offset_left := (20 : ℚ)
    offset_top := (30 : ℚ)
    box := { content := ⟨(100 : ℚ), (50 : ℚ)⟩, margin := fun _ => (0 : ℚ) }
    properties := fun _ => ⟨Variant.INT 0, Property.Unit.PX⟩ }

/-- An element like `box1` whose four margins are `auto`, each resolved to
10.25 pixels, and whose content size is (20000, 20000). -/
def box2 : Element ratArith :=
  { offset_left := (20 : ℚ)
    offset_top := (30 : ℚ)
    box := { content := ⟨(20000 : ℚ), (20000 : ℚ)⟩, margin := fun _ => (41 / 4 : ℚ) }
    properties := fun i =>
      if i = PropertyId.MarginTop ∨ i = PropertyId.MarginRight ∨ i = PropertyId.MarginBottom
          ∨ i = PropertyId.MarginLeft then
        ⟨Variant.STRING "auto", Property.Unit.KEYWORD⟩
      else ⟨Variant.INT 0, Property.Unit.PX⟩ }

/-- A document in which element 1 is `box1` with id "box1", element 2 is
`box2` with id "box2", and the handle (element 0) has the given attributes. -/
def document (attributes : String → Option String) (owner_document : Bool) :
    World ratArith :=
  { elements := fun e => if e = 2 then box2 else box1
    owner_document := owner_document
    attributes := attributes
    element_ids := fun s =>
      if s = "box1" then some 1 else if s = "box2" then some 2 else none
    calls := [] }

/-- The handle has `size_target="box1"`. -/
def sizeBox1 : World ratArith :=
  document (fun s => if s = "size_target" then some "box1" else none) true

/-- The handle has `move_target="box1"`. -/
def moveBox1 : World ratArith :=
  document (fun s => if s = "move_target" then some "box1" else none) true

/-- The handle has `size_target="box2"`. -/
def sizeBox2 : World ratArith :=
  document (fun s => if s = "size_target" then some "box2" else none) true

/-- The handle has `move_target="box1"` and no owner document. -/
def detached : World ratArith :=
  document (fun s => if s = "move_target" then some "box1" else none) false

/-- A freshly constructed handle, element 0. -/
def handle0 : ElementHandle ratArith :=
  (ElementHandle.new 0 ⟨(0 : ℚ), (0 : ℚ)⟩ ⟨(0 : ℚ), (0 : ℚ)⟩ sizeBox1).1

/-- A drag-start on the handle at pointer (10, 10). -/
def dragstartAt10 : Event :=
  ⟨some 0, EventId.Dragstart, [("mouse_x", 10), ("mouse_y", 10)]⟩

/-- The handle after `move_target="box1"` was resolved by a drag-start, and
after "move_target" was then reported as changed. -/
def rebound : ElementHandle ratArith :=
  ((handle0.ProcessEvent moveBox1 dragstartAt10).1.OnAttributeChange moveBox1
    ["move_target"]).1

/-- A state that no run of the handle produces: not initialised, yet holding
element 2 as size target. -/
def strayHandle : ElementHandle ratArith :=
  { handle0 with size_target := some 2 }

/-- A drag on the handle at pointer (40, 5). -/
def dragAt40 : Event :=
  ⟨some 0, EventId.Drag, [("mouse_x", 40), ("mouse_y", 5)]⟩

/-- A drag on the handle at pointer (-9990, -9990). -/
def dragFarLeft : Event :=
  ⟨some 0, EventId.Drag, [("mouse_x", -9990), ("mouse_y", -9990)]⟩

/-- A drag on the handle that carries `mouse_x` only. -/
def dragNoY : Event :=
  ⟨some 0, EventId.Drag, [("mouse_x", 7)]⟩

/-- An element with offset (200, 300) and content size (100, 50). -/
def box3 : Element ratArith :=
  { box1 with offset_left := (200 : ℚ), offset_top := (300 : ℚ) }

/-- A document in which element 1 is `box1` with id "box1", element 3 is
`box3` with id "box3", and the handle (element 0) has the given `move_target`
attribute. -/
def gallery (move_target : String) : World ratArith :=
  { elements := fun e => if e = 3 then box3 else box1
    owner_document := true
    attributes := fun s => if s = "move_target" then some move_target else none
    element_ids := fun s =>
      if s = "box1" then some 1 else if s = "box3" then some 3 else none
    calls := [] }

/-- The fresh handle after a drag-start at (10, 10) in the gallery with
`move_target="box1"`: it holds element 1 and the offset (20, 30) of element
1. -/
def grabbed : ElementHandle ratArith :=
  (handle0.ProcessEvent (gallery "box1") dragstartAt10).1

/-- The handle `grabbed` after the attribute was set to `move_target="box3"`
and "move_target" was reported as changed. -/
def regrabbed : ElementHandle ratArith :=
  (grabbed.OnAttributeChange (gallery "box3") ["move_target"]).1

/-- A drag-start whose target is element 5, a child of the handle. -/
def dragstartOnChild : Event :=
  ⟨some 5, EventId.Dragstart, [("mouse_x", 10), ("mouse_y", 10)]⟩

/-- A drag-start on the handle that carries `mouse_y` only. -/
def dragstartNoX : Event :=
  ⟨some 0, EventId.Dragstart, [("mouse_y", 4)]⟩

/-! ## Lemmas on the parts of ProcessEvent -/

section Lemmas

variable {A : FloatArith}

open ElementHandle

theorem LazyInitialisation_of_initialised (h : ElementHandle A) (w : World A)
    (hi : h.initialised = true) : LazyInitialisation h w = h := by
  simp [LazyInitialisation, hi]

theorem LazyInitialisation_of_detached (h : ElementHandle A) (w : World A)
    (hd : w.owner_document = false) : LazyInitialisation h w = h := by
  simp [LazyInitialisation, hd]

theorem LazyInitialisation_self (h : ElementHandle A) (w : World A) :
    (LazyInitialisation h w).self = h.self := by
  unfold LazyInitialisation
  dsimp only
  split_ifs <;> rfl

theorem LazyInitialisation_anchor (h : ElementHandle A) (w : World A) :
    (LazyInitialisation h w).drag_start = h.drag_start ∧
    (LazyInitialisation h w).move_original_position = h.move_original_position ∧
    (LazyInitialisation h w).size_original_size = h.size_original_size := by
  unfold LazyInitialisation
  dsimp only
  split_ifs <;> exact ⟨rfl, rfl, rfl⟩

theorem LazyInitialisation_initialised (h : ElementHandle A) (w : World A) :
    (LazyInitialisation h w).initialised = (h.initialised || w.owner_document) := by
  unfold LazyInitialisation
  dsimp only
  cases hi : h.initialised <;> cases hd : w.owner_document <;> simp [hi]

theorem isEmpty_eq_decide (s : String) : s.isEmpty = decide (s = "") := by
  by_cases hs : s = ""
  · simp [hs, (String.isEmpty_iff "").2 rfl]
  · have hne : ¬ (s.isEmpty = true) := fun hc => hs ((String.isEmpty_iff s).1 hc)
    simp [hs, hne]

theorem LazyInitialisation_move_target (h : ElementHandle A) (w : World A)
    (hi : h.initialised = false) (hd : w.owner_document = true) :
    (LazyInitialisation h w).move_target =
      if w.GetAttribute "move_target" "" = "" then h.move_target
      else w.GetElementById (w.GetAttribute "move_target" "") := by
  unfold LazyInitialisation
  simp only [hi, hd, Bool.not_false, Bool.and_self, if_true, isEmpty_eq_decide]
  by_cases h1 : w.GetAttribute "move_target" "" = "" <;>
    by_cases h2 : w.GetAttribute "size_target" "" = "" <;> simp [h1, h2]

theorem LazyInitialisation_size_target (h : ElementHandle A) (w : World A)
    (hi : h.initialised = false) (hd : w.owner_document = true) :
    (LazyInitialisation h w).size_target =
      if w.GetAttribute "size_target" "" = "" then h.size_target
      else w.GetElementById (w.GetAttribute "size_target" "") := by
  unfold LazyInitialisation
  simp only [hi, hd, Bool.not_false, Bool.and_self, if_true, isEmpty_eq_decide]
  by_cases h1 : w.GetAttribute "move_target" "" = "" <;>
    by_cases h2 : w.GetAttribute "size_target" "" = "" <;> simp [h1, h2]

theorem Dragstart_fields (h : ElementHandle A) (w : World A) (ev : Event) :
    (Dragstart h w ev).self = h.self ∧
    (Dragstart h w ev).initialised = h.initialised ∧
    (Dragstart h w ev).move_target = h.move_target ∧
    (Dragstart h w ev).size_target = h.size_target ∧
    (Dragstart h w ev).drag_start
      = ⟨ev.GetParameter "mouse_x" 0, ev.GetParameter "mouse_y" 0⟩ := by
  unfold Dragstart
  cases h.move_target <;> cases h.size_target <;> exact ⟨rfl, rfl, rfl, rfl, rfl⟩

theorem Dragstart_move_original_position (h : ElementHandle A) (w : World A) (ev : Event) :
    (Dragstart h w ev).move_original_position =
      match h.move_target with
      | some t => ⟨(w.elements t).offset_left, (w.elements t).offset_top⟩
      | none => h.move_original_position := by
  unfold Dragstart
  cases h.move_target <;> cases h.size_target <;> rfl

theorem Dragstart_size_original_size (h : ElementHandle A) (w : World A) (ev : Event) :
    (Dragstart h w ev).size_original_size =
      match h.size_target with
      | some t => (w.elements t).box.content
      | none => h.size_original_size := by
  unfold Dragstart
  cases h.move_target <;> cases h.size_target <;> rfl

theorem ProcessEvent_self (h : ElementHandle A) (w : World A) (ev : Event) :
    (h.ProcessEvent w ev).1.self = h.self := by
  unfold ProcessEvent
  dsimp only
  split_ifs <;> simp [Dragstart_fields, LazyInitialisation_self]

theorem LazyInitialisation_base (h : ElementHandle A) (w : World A) (ev : Event) :
    LazyInitialisation h (w.Element_ProcessEvent ev) = LazyInitialisation h w := rfl

theorem ProcessEvent_Dragstart (h : ElementHandle A) (w : World A) (ev : Event)
    (ht : ev.target = some h.self) (hid : ev.id = EventId.Dragstart) :
    h.ProcessEvent w ev
      = (Dragstart (LazyInitialisation h w) (w.Element_ProcessEvent ev) ev,
         w.Element_ProcessEvent ev) := by
  unfold ProcessEvent
  simp [ht, hid, LazyInitialisation_base]

theorem ProcessEvent_Drag (h : ElementHandle A) (w : World A) (ev : Event)
    (ht : ev.target = some h.self) (hid : ev.id = EventId.Drag) :
    h.ProcessEvent w ev
      = (LazyInitialisation h w,
         Drag (LazyInitialisation h w) (w.Element_ProcessEvent ev) ev) := by
  unfold ProcessEvent
  simp [ht, hid, LazyInitialisation_base]

theorem ProcessEvent_not_target (h : ElementHandle A) (w : World A) (ev : Event)
    (ht : ev.target ≠ some h.self) :
    h.ProcessEvent w ev = (h, w.Element_ProcessEvent ev) := by
  unfold ProcessEvent
  simp [ht]

theorem ProcessEvent_other (h : ElementHandle A) (w : World A) (ev : Event)
    (ht : ev.target = some h.self) (h1 : ev.id ≠ EventId.Dragstart)
    (h2 : ev.id ≠ EventId.Drag) :
    h.ProcessEvent w ev = (LazyInitialisation h w, w.Element_ProcessEvent ev) := by
  unfold ProcessEvent
  simp [ht, h1, h2, LazyInitialisation_base]

theorem SetProperty_properties (w : World A) (e e' : ElementRef) (i j : PropertyId)
    (p : Property A) :
    ((w.SetProperty e i p).elements e').properties j
      = if e' = e ∧ j = i then p else (w.elements e').properties j := by
  unfold World.SetProperty
  by_cases h1 : e' = e <;> by_cases h2 : j = i <;> simp [h1, h2]

theorem SetProperty_box (w : World A) (e e' : ElementRef) (i : PropertyId)
    (p : Property A) : ((w.SetProperty e i p).elements e').box = (w.elements e').box := by
  unfold World.SetProperty
  by_cases h1 : e' = e <;> simp [h1]

theorem SetProperty_calls (w : World A) (e : ElementRef) (i : PropertyId) (p : Property A) :
    (w.SetProperty e i p).calls = w.calls ++ [Call.SetProperty e i p] := rfl

theorem DragMove_calls (h : ElementHandle A) (w : World A) (x y : Int) :
    (DragMove h w x y).calls = w.calls ++ moveWrites h x y := by
  unfold DragMove moveWrites movedPosition
  cases h.move_target <;> simp [SetProperty_calls]

theorem DragMove_properties (h : ElementHandle A) (w : World A) (x y : Int)
    (e : ElementRef) (i : PropertyId) :
    ((DragMove h w x y).elements e).properties i =
      if h.move_target = some e ∧ i = PropertyId.Top then
        ⟨Variant.INT (A.RealToInteger (A.add h.move_original_position.y (A.ofInt y))),
         Property.Unit.PX⟩
      else if h.move_target = some e ∧ i = PropertyId.Left then
        ⟨Variant.INT (A.RealToInteger (A.add h.move_original_position.x (A.ofInt x))),
         Property.Unit.PX⟩
      else (w.elements e).properties i := by
  unfold DragMove
  cases hm : h.move_target with
  | none => simp
  | some t =>
    simp only [SetProperty_properties, Option.some.injEq]
    by_cases he : e = t
    · subst he; simp
    · have he2 : ¬ t = e := fun hc => he hc.symm
      simp [he, he2]

theorem DragMove_box (h : ElementHandle A) (w : World A) (x y : Int) (e : ElementRef) :
    ((DragMove h w x y).elements e).box = (w.elements e).box := by
  unfold DragMove
  cases h.move_target <;> simp [SetProperty_box]

theorem ite_SetProperty_properties (c : Prop) [Decidable c] (w : World A)
    (t e : ElementRef) (j i : PropertyId) (p : Property A) :
    ((if c then w.SetProperty t j p else w).elements e).properties i
      = if c ∧ e = t ∧ i = j then p else (w.elements e).properties i := by
  by_cases hc : c <;> simp [hc, SetProperty_properties]

theorem ite_SetProperty_box (c : Prop) [Decidable c] (w : World A)
    (t e : ElementRef) (j : PropertyId) (p : Property A) :
    ((if c then w.SetProperty t j p else w).elements e).box = (w.elements e).box := by
  by_cases hc : c <;> simp [hc, SetProperty_box]

theorem ite_SetProperty_calls (c : Prop) [Decidable c] (w : World A)
    (t : ElementRef) (j : PropertyId) (p : Property A) :
    (if c then w.SetProperty t j p else w).calls
      = w.calls ++ if c then [Call.SetProperty t j p] else [] := by
  by_cases hc : c <;> simp [hc, SetProperty_calls]

theorem DragSize_calls (h : ElementHandle A) (w : World A) (x y : Int) :
    (DragSize h w x y).calls = w.calls ++ sizeWrites h w x y := by
  unfold DragSize sizeWrites marginWrite marginProperty
  cases h.size_target with
  | none => simp
  | some t =>
    simp only [SetProperty_calls, ite_SetProperty_calls, ite_SetProperty_box, frozenMargin,
      clampedSize, List.append_assoc, List.singleton_append]

theorem sizeWrites_DragMove (h h' : ElementHandle A) (w : World A) (x y x' y' : Int) :
    sizeWrites h (DragMove h' w x' y') x y = sizeWrites h w x y := by
  unfold sizeWrites marginWrite marginProperty
  cases h.size_target with
  | none => rfl
  | some t => simp [DragMove_properties, DragMove_box]

theorem sizeWrites_base (h : ElementHandle A) (w : World A) (ev : Event) (x y : Int) :
    sizeWrites h (w.Element_ProcessEvent ev) x y = sizeWrites h w x y := rfl

theorem mem_moveWrites (h : ElementHandle A) (x y : Int) (c : Call A) :
    c ∈ moveWrites h x y ↔ ∃ t, h.move_target = some t ∧
      (c = Call.SetProperty t PropertyId.Left (movedPosition A h.move_original_position.x x) ∨
       c = Call.SetProperty t PropertyId.Top (movedPosition A h.move_original_position.y y)) := by
  unfold moveWrites
  cases h.move_target <;> simp

theorem mem_marginWrite (w : World A) (t : ElementRef) (edge : Box.Edge) (c : Call A) :
    c ∈ marginWrite w t edge ↔
      ((w.elements t).properties (marginProperty edge)).unit = Property.Unit.KEYWORD ∧
      c = Call.SetProperty t (marginProperty edge)
        (frozenMargin A ((w.elements t).box.margin edge)) := by
  unfold marginWrite
  split_ifs with hk <;> simp [hk]

theorem mem_sizeWrites (h : ElementHandle A) (w : World A) (x y : Int) (c : Call A) :
    c ∈ sizeWrites h w x y ↔ ∃ t, h.size_target = some t ∧
      ((∃ edge, c ∈ marginWrite w t edge) ∨
       c = Call.SetProperty t PropertyId.Width (clampedSize A h.size_original_size.x x) ∨
       c = Call.SetProperty t PropertyId.Height (clampedSize A h.size_original_size.y y)) := by
  unfold sizeWrites
  cases h.size_target with
  | none => simp
  | some t =>
    simp only [List.mem_append, List.mem_cons, List.mem_singleton, List.not_mem_nil, or_false,
      Option.some.injEq, exists_eq_left']
    constructor
    · rintro (hc | hc | hc | hc | hc | hc)
      · exact Or.inl ⟨_, hc⟩
      · exact Or.inl ⟨_, hc⟩
      · exact Or.inl ⟨_, hc⟩
      · exact Or.inl ⟨_, hc⟩
      · exact Or.inr (Or.inl hc)
      · exact Or.inr (Or.inr hc)
    · rintro (⟨edge, hc⟩ | hc | hc)
      · cases edge
        · exact Or.inl hc
        · exact Or.inr (Or.inl hc)
        · exact Or.inr (Or.inr (Or.inl hc))
        · exact Or.inr (Or.inr (Or.inr (Or.inl hc)))
      · exact Or.inr (Or.inr (Or.inr (Or.inr (Or.inl hc))))
      · exact Or.inr (Or.inr (Or.inr (Or.inr (Or.inr hc))))

theorem DragSize_properties (h : ElementHandle A) (w : World A) (x y : Int)
    (e : ElementRef) (i : PropertyId) :
    ((DragSize h w x y).elements e).properties i =
      if h.size_target = some e ∧ i = PropertyId.Height then
        clampedSize A h.size_original_size.y y
      else if h.size_target = some e ∧ i = PropertyId.Width then
        clampedSize A h.size_original_size.x x
      else if h.size_target = some e ∧ i = PropertyId.MarginLeft ∧
          ((w.elements e).properties PropertyId.MarginLeft).unit = Property.Unit.KEYWORD then
        frozenMargin A ((w.elements e).box.margin Box.Edge.LEFT)
      else if h.size_target = some e ∧ i = PropertyId.MarginBottom ∧
          ((w.elements e).properties PropertyId.MarginBottom).unit = Property.Unit.KEYWORD then
        frozenMargin A ((w.elements e).box.margin Box.Edge.BOTTOM)
      else if h.size_target = some e ∧ i = PropertyId.MarginRight ∧
          ((w.elements e).properties PropertyId.MarginRight).unit = Property.Unit.KEYWORD then
        frozenMargin A ((w.elements e).box.margin Box.Edge.RIGHT)
      else if h.size_target = some e ∧ i = PropertyId.MarginTop ∧
          ((w.elements e).properties PropertyId.MarginTop).unit = Property.Unit.KEYWORD then
        frozenMargin A ((w.elements e).box.margin Box.Edge.TOP)
      else (w.elements e).properties i := by
  unfold DragSize
  cases hs : h.size_target with
  | none => simp
  | some t =>
    simp only [SetProperty_properties, ite_SetProperty_properties, ite_SetProperty_box,
      Option.some.injEq, frozenMargin, clampedSize]
    by_cases he : e = t
    · subst he
      simp only [true_and, and_true]
      repeat (first | rfl | split_ifs | simp_all)
    · have he2 : ¬ t = e := fun hc => he hc.symm
      simp [he, he2]

theorem DragSize_box (h : ElementHandle A) (w : World A) (x y : Int) (e : ElementRef) :
    ((DragSize h w x y).elements e).box = (w.elements e).box := by
  unfold DragSize
  cases h.size_target with
  | none => simp
  | some t => simp only [SetProperty_box, ite_SetProperty_box]

theorem Drag_parameters (x y : Int) :
    (Dictionary.set (Dictionary.set [] "handle_x" x) "handle_y" y)
      = [("handle_x", x), ("handle_y", y)] := by
  simp [Dictionary.set]

theorem Drag_calls (h : ElementHandle A) (w : World A) (ev : Event) :
    (Drag h w ev).calls =
      (DragSize h (DragMove h w (ev.GetParameter "mouse_x" 0 - h.drag_start.x)
        (ev.GetParameter "mouse_y" 0 - h.drag_start.y))
        (ev.GetParameter "mouse_x" 0 - h.drag_start.x)
        (ev.GetParameter "mouse_y" 0 - h.drag_start.y)).calls ++
      [Call.DispatchEvent h.self EventId.Handledrag
        [("handle_x", ev.GetParameter "mouse_x" 0 - h.drag_start.x),
         ("handle_y", ev.GetParameter "mouse_y" 0 - h.drag_start.y)]] := by
  unfold Drag
  simp only [World.DispatchEvent, Drag_parameters]

theorem Drag_elements (h : ElementHandle A) (w : World A) (ev : Event) :
    (Drag h w ev).elements =
      (DragSize h (DragMove h w (ev.GetParameter "mouse_x" 0 - h.drag_start.x)
        (ev.GetParameter "mouse_y" 0 - h.drag_start.y))
        (ev.GetParameter "mouse_x" 0 - h.drag_start.x)
        (ev.GetParameter "mouse_y" 0 - h.drag_start.y)).elements := rfl

theorem all_SetProperty_moveWrites (h : ElementHandle A) (x y : Int) :
    ∀ c ∈ moveWrites h x y, ∃ e i p, c = Call.SetProperty e i p := by
  intro c hc
  obtain ⟨t, -, hc | hc⟩ := (mem_moveWrites h x y c).1 hc <;> exact ⟨_, _, _, hc⟩

theorem all_SetProperty_sizeWrites (h : ElementHandle A) (w : World A) (x y : Int) :
    ∀ c ∈ sizeWrites h w x y, ∃ e i p, c = Call.SetProperty e i p := by
  intro c hc
  obtain ⟨t, -, ⟨edge, hc⟩ | hc | hc⟩ := (mem_sizeWrites h w x y c).1 hc
  · exact ⟨_, _, _, ((mem_marginWrite w t edge c).1 hc).2⟩
  · exact ⟨_, _, _, hc⟩
  · exact ⟨_, _, _, hc⟩

theorem ProcessEvent_Drag_calls (h : ElementHandle A) (w : World A) (ev : Event)
    (ht : ev.target = some h.self) (hid : ev.id = EventId.Drag) :
    (h.ProcessEvent w ev).2.calls = w.calls ++ Call.Element_ProcessEvent ev ::
      (moveWrites (LazyInitialisation h w) (ev.GetParameter "mouse_x" 0 - h.drag_start.x)
          (ev.GetParameter "mouse_y" 0 - h.drag_start.y) ++
        (sizeWrites (LazyInitialisation h w) w (ev.GetParameter "mouse_x" 0 - h.drag_start.x)
            (ev.GetParameter "mouse_y" 0 - h.drag_start.y) ++
          [Call.DispatchEvent h.self EventId.Handledrag
            [("handle_x", ev.GetParameter "mouse_x" 0 - h.drag_start.x),
             ("handle_y", ev.GetParameter "mouse_y" 0 - h.drag_start.y)]])) := by
  rw [ProcessEvent_Drag h w ev ht hid, Drag_calls, DragSize_calls, DragMove_calls,
    sizeWrites_DragMove, sizeWrites_base,
    LazyInitialisation_self, (LazyInitialisation_anchor h w).1]
  have hbase : (w.Element_ProcessEvent ev).calls = w.calls ++ [Call.Element_ProcessEvent ev] :=
    rfl
  rw [hbase]
  simp only [List.append_assoc, List.singleton_append, List.cons_append, List.nil_append]

theorem callsOf_Drag (h : ElementHandle A) (w : World A) (ev : Event)
    (ht : ev.target = some h.self) (hid : ev.id = EventId.Drag) :
    h.callsOf w ev = Call.Element_ProcessEvent ev ::
      (moveWrites (LazyInitialisation h w) (ev.GetParameter "mouse_x" 0 - h.drag_start.x)
          (ev.GetParameter "mouse_y" 0 - h.drag_start.y) ++
        (sizeWrites (LazyInitialisation h w) w (ev.GetParameter "mouse_x" 0 - h.drag_start.x)
            (ev.GetParameter "mouse_y" 0 - h.drag_start.y) ++
          [Call.DispatchEvent h.self EventId.Handledrag
            [("handle_x", ev.GetParameter "mouse_x" 0 - h.drag_start.x),
             ("handle_y", ev.GetParameter "mouse_y" 0 - h.drag_start.y)]])) := by
  unfold callsOf
  rw [ProcessEvent_Drag_calls h w ev ht hid, List.drop_left]

theorem ProcessEvent_Drag_properties (h : ElementHandle A) (w : World A) (ev : Event)
    (ht : ev.target = some h.self) (hid : ev.id = EventId.Drag) (e : ElementRef)
    (i : PropertyId) :
    ((h.ProcessEvent w ev).2.elements e).properties i =
      ((DragSize (LazyInitialisation h w)
        (DragMove (LazyInitialisation h w) w
          (ev.GetParameter "mouse_x" 0 - h.drag_start.x)
          (ev.GetParameter "mouse_y" 0 - h.drag_start.y))
        (ev.GetParameter "mouse_x" 0 - h.drag_start.x)
        (ev.GetParameter "mouse_y" 0 - h.drag_start.y)).elements e).properties i := by
  rw [ProcessEvent_Drag h w ev ht hid, Drag_elements, (LazyInitialisation_anchor h w).1]
  simp only [DragSize_properties, DragMove_properties, DragMove_box]
  rfl

theorem marginProperty_ne (edge : Box.Edge) :
    marginProperty edge ≠ PropertyId.Left ∧ marginProperty edge ≠ PropertyId.Top ∧
    marginProperty edge ≠ PropertyId.Width ∧ marginProperty edge ≠ PropertyId.Height := by
  cases edge <;> simp [marginProperty]

theorem marginProperty_injective (e1 e2 : Box.Edge) (he : marginProperty e1 = marginProperty e2) :
    e1 = e2 := by
  cases e1 <;> cases e2 <;> simp [marginProperty] at he ⊢

theorem ProcessEvent_resolution (h : ElementHandle A) (w : World A) (ev : Event) :
    (h.ProcessEvent w ev).1.initialised
      = (if ev.target = some h.self then (LazyInitialisation h w).initialised
         else h.initialised) ∧
    (h.ProcessEvent w ev).1.move_target
      = (if ev.target = some h.self then (LazyInitialisation h w).move_target
         else h.move_target) ∧
    (h.ProcessEvent w ev).1.size_target
      = (if ev.target = some h.self then (LazyInitialisation h w).size_target
         else h.size_target) := by
  by_cases ht : ev.target = some h.self
  · by_cases h1 : ev.id = EventId.Dragstart
    · rw [ProcessEvent_Dragstart h w ev ht h1]
      have hf := Dragstart_fields (LazyInitialisation h w) (w.Element_ProcessEvent ev) ev
      simp [ht, hf.2.1, hf.2.2.1, hf.2.2.2.1]
    · by_cases h2 : ev.id = EventId.Drag
      · rw [ProcessEvent_Drag h w ev ht h2]
        simp [ht]
      · rw [ProcessEvent_other h w ev ht h1 h2]
        simp [ht]
  · rw [ProcessEvent_not_target h w ev ht]
    simp [ht]

theorem OnAttributeChange_fields (h : ElementHandle A) (w : World A) (changed : List String) :
    (h.OnAttributeChange w changed).1 =
      if "move_target" ∈ changed ∨ "size_target" ∈ changed then
        { h with initialised := false, move_target := none, size_target := none }
      else h := by
  unfold OnAttributeChange
  by_cases h1 : "move_target" ∈ changed <;> by_cases h2 : "size_target" ∈ changed <;>
    simp [h1, h2]

/-- The invariant of the handle: while it is not initialised, it holds no
target. -/
theorem unresolved_step (h : ElementHandle A) (s : Step A)
    (hinv : h.initialised = false → h.move_target = none ∧ h.size_target = none) :
    (h.step s).initialised = false →
      (h.step s).move_target = none ∧ (h.step s).size_target = none := by
  cases s with
  | OnAttributeChange w changed =>
    simp only [ElementHandle.step, OnAttributeChange_fields]
    split_ifs
    · intro _; exact ⟨rfl, rfl⟩
    · exact hinv
  | ProcessEvent w ev =>
    obtain ⟨h1, h2, h3⟩ := ProcessEvent_resolution h w ev
    simp only [ElementHandle.step, h1, h2, h3]
    split_ifs
    · intro hi
      rw [LazyInitialisation_initialised] at hi
      have hi1 : h.initialised = false := by
        cases hx : h.initialised <;> simp_all
      have hd : w.owner_document = false := by
        cases hx : w.owner_document <;> simp_all
      rw [LazyInitialisation_of_detached h w hd]
      exact hinv hi1
    · exact hinv

theorem unresolved_run (steps : List (Step A)) (h : ElementHandle A)
    (hinv : h.initialised = false → h.move_target = none ∧ h.size_target = none) :
    (h.run steps).initialised = false →
      (h.run steps).move_target = none ∧ (h.run steps).size_target = none := by
  induction steps generalizing h with
  | nil => exact hinv
  | cons s rest ih => exact ih (h.step s) (unresolved_step h s hinv)

theorem unresolved_of_reachable (h : ElementHandle A) (hr : h.Reachable)
    (hi : h.initialised = false) : h.move_target = none ∧ h.size_target = none := by
  obtain ⟨self, p, q, w, steps, rfl⟩ := hr
  exact unresolved_run steps _ (fun _ => ⟨rfl, rfl⟩) hi

theorem handle0_reachable : handle0.Reachable :=
  ⟨0, ⟨(0 : ℚ), (0 : ℚ)⟩, ⟨(0 : ℚ), (0 : ℚ)⟩, sizeBox1, [], rfl⟩

theorem filter_moveWrites (h : ElementHandle A) (x y : Int) :
    (moveWrites h x y).filter Call.isGeometryOrDispatch = moveWrites h x y := by
  unfold moveWrites
  cases h.move_target <;> simp [Call.isGeometryOrDispatch]

theorem Max_not_negative (n : Int) :
    A.gt (A.ofInt 0) (Math.Max A (A.ofInt n) (A.ofInt 0)) = false := by
  unfold Math.Max
  cases hg : A.gt (A.ofInt n) (A.ofInt 0) with
  | true => simpa using A.gt_asymm _ _ hg
  | false =>
    cases h0 : A.gt (A.ofInt 0) (A.ofInt 0) with
    | true =>
      have := A.gt_asymm _ _ h0
      rw [h0] at this
      cases this
    | false => simp [h0]

theorem Max_eq_zero (n : Int) (hn : n ≤ 0) :
    Math.Max A (A.ofInt n) (A.ofInt 0) = A.ofInt 0 := by
  unfold Math.Max
  cases hg : A.gt (A.ofInt n) (A.ofInt 0) with
  | true =>
    have := A.gt_ofInt _ _ hg
    omega
  | false => simp

theorem drag_after_dragstart_size (h : ElementHandle A) (w w' : World A) (start drag : Event)
    (t : ElementRef)
    (hstart_target : start.target = some h.self) (hstart_id : start.id = EventId.Dragstart)
    (hdrag_target : drag.target = some h.self) (hdrag_id : drag.id = EventId.Drag)
    (hinitialised : (h.ProcessEvent w start).1.initialised = true)
    (hbound : (h.ProcessEvent w start).1.size_target = some t) :
    (((h.ProcessEvent w start).1.ProcessEvent w' drag).2.elements t).properties PropertyId.Width
      = clampedSize A (w.elements t).box.content.x
          (drag.GetParameter "mouse_x" 0 - start.GetParameter "mouse_x" 0) ∧
    (((h.ProcessEvent w start).1.ProcessEvent w' drag).2.elements t).properties PropertyId.Height
      = clampedSize A (w.elements t).box.content.y
          (drag.GetParameter "mouse_y" 0 - start.GetParameter "mouse_y" 0) := by
  have hself : (h.ProcessEvent w start).1.self = h.self := ProcessEvent_self h w start
  rw [ProcessEvent_Drag_properties _ w' drag (by rw [hself]; exact hdrag_target) hdrag_id,
    ProcessEvent_Drag_properties _ w' drag (by rw [hself]; exact hdrag_target) hdrag_id,
    LazyInitialisation_of_initialised _ w' hinitialised]
  rw [ProcessEvent_Dragstart h w start hstart_target hstart_id] at hbound ⊢
  have hf := Dragstart_fields (LazyInitialisation h w) (w.Element_ProcessEvent start) start
  have hs := Dragstart_size_original_size (LazyInitialisation h w)
    (w.Element_ProcessEvent start) start
  rw [hf.2.2.2.1] at hbound
  rw [hbound] at hs
  simp only [DragSize_properties, hf.2.2.2.1, hf.2.2.2.2, hbound, hs, true_and]
  constructor <;> simp [World.Element_ProcessEvent]

theorem callsOf_not_Drag (h : ElementHandle A) (w : World A) (ev : Event)
    (hn : ev.target ≠ some h.self ∨ ev.id ≠ EventId.Drag) :
    h.callsOf w ev = [Call.Element_ProcessEvent ev] := by
  have hbase : (w.Element_ProcessEvent ev).calls = w.calls ++ [Call.Element_ProcessEvent ev] :=
    rfl
  unfold callsOf
  by_cases ht : ev.target = some h.self
  · have h2 : ev.id ≠ EventId.Drag := by
      rcases hn with hn | hn
      · exact absurd ht hn
      · exact hn
    by_cases h1 : ev.id = EventId.Dragstart
    · rw [ProcessEvent_Dragstart h w ev ht h1, hbase, List.drop_left]
    · rw [ProcessEvent_other h w ev ht h1 h2, hbase, List.drop_left]
  · rw [ProcessEvent_not_target h w ev ht, hbase, List.drop_left]

theorem LazyInitialisation_targets (h : ElementHandle A) (w : World A) :
    ((LazyInitialisation h w).move_target = h.move_target ∨
      (w.owner_document = true ∧ w.GetAttribute "move_target" "" ≠ "" ∧
        (LazyInitialisation h w).move_target
          = w.GetElementById (w.GetAttribute "move_target" ""))) ∧
    ((LazyInitialisation h w).size_target = h.size_target ∨
      (w.owner_document = true ∧ w.GetAttribute "size_target" "" ≠ "" ∧
        (LazyInitialisation h w).size_target
          = w.GetElementById (w.GetAttribute "size_target" ""))) := by
  cases hi : h.initialised with
  | true =>
    rw [LazyInitialisation_of_initialised h w hi]
    exact ⟨Or.inl rfl, Or.inl rfl⟩
  | false =>
    cases hd : w.owner_document with
    | false =>
      rw [LazyInitialisation_of_detached h w hd]
      exact ⟨Or.inl rfl, Or.inl rfl⟩
    | true =>
      rw [LazyInitialisation_move_target h w hi hd, LazyInitialisation_size_target h w hi hd]
      constructor
      · by_cases h1 : w.GetAttribute "move_target" "" = ""
        · left; simp [h1]
        · right; simp [h1]
      · by_cases h1 : w.GetAttribute "size_target" "" = ""
        · left; simp [h1]
        · right; simp [h1]

theorem step_self (h : ElementHandle A) (s : Step A) : (h.step s).self = h.self := by
  cases s with
  | OnAttributeChange w changed =>
    simp only [ElementHandle.step, OnAttributeChange_fields]
    split_ifs <;> rfl
  | ProcessEvent w ev => exact ProcessEvent_self h w ev

theorem run_self (steps : List (Step A)) (h : ElementHandle A) :
    (h.run steps).self = h.self := by
  induction steps generalizing h with
  | nil => rfl
  | cons s rest ih =>
    show ((h.step s).run rest).self = h.self
    rw [ih, step_self]

theorem ResolvedIn_mono (self : ElementRef) (name : String) (S S' : List (Step A))
    (e : ElementRef) (hsub : ∀ s ∈ S, s ∈ S') (hr : ResolvedIn self name S e) :
    ResolvedIn self name S' e := by
  obtain ⟨w, ev, hmem, h1, h2, h3, h4⟩ := hr
  exact ⟨w, ev, hsub _ hmem, h1, h2, h3, h4⟩

theorem resolved_step (S : List (Step A)) (g : ElementHandle A) (s : Step A)
    (hm : ∀ e, g.move_target = some e → ResolvedIn g.self "move_target" S e)
    (hs : ∀ e, g.size_target = some e → ResolvedIn g.self "size_target" S e) :
    (∀ e, (g.step s).move_target = some e →
      ResolvedIn g.self "move_target" (S ++ [s]) e) ∧
    (∀ e, (g.step s).size_target = some e →
      ResolvedIn g.self "size_target" (S ++ [s]) e) := by
  have hsub : ∀ x ∈ S, x ∈ S ++ [s] := fun x hx => List.mem_append_left _ hx
  have hm' : ∀ e, g.move_target = some e → ResolvedIn g.self "move_target" (S ++ [s]) e :=
    fun e he => ResolvedIn_mono _ _ _ _ _ hsub (hm e he)
  have hs' : ∀ e, g.size_target = some e → ResolvedIn g.self "size_target" (S ++ [s]) e :=
    fun e he => ResolvedIn_mono _ _ _ _ _ hsub (hs e he)
  cases s with
  | OnAttributeChange w changed =>
    simp only [ElementHandle.step, OnAttributeChange_fields]
    split_ifs
    · constructor <;> (intro e he; cases he)
    · exact ⟨hm', hs'⟩
  | ProcessEvent w ev =>
    obtain ⟨-, h2, h3⟩ := ProcessEvent_resolution g w ev
    simp only [ElementHandle.step, h2, h3]
    by_cases ht : ev.target = some g.self
    · simp only [ht, if_true]
      obtain ⟨hlm, hls⟩ := LazyInitialisation_targets g w
      constructor
      · intro e he
        rcases hlm with hlm | ⟨hd, hne, hlm⟩
        · exact hm' e (hlm ▸ he)
        · exact ⟨w, ev, List.mem_append_right _ (List.mem_singleton.2 rfl), ht, hd, hne,
            hlm ▸ he⟩
      · intro e he
        rcases hls with hls | ⟨hd, hne, hls⟩
        · exact hs' e (hls ▸ he)
        · exact ⟨w, ev, List.mem_append_right _ (List.mem_singleton.2 rfl), ht, hd, hne,
            hls ▸ he⟩
    · simp only [ht, if_false]
      exact ⟨hm', hs'⟩

theorem resolved_run (steps : List (Step A)) (S : List (Step A)) (g : ElementHandle A)
    (hm : ∀ e, g.move_target = some e → ResolvedIn g.self "move_target" S e)
    (hs : ∀ e, g.size_target = some e → ResolvedIn g.self "size_target" S e) :
    (∀ e, (g.run steps).move_target = some e →
      ResolvedIn g.self "move_target" (S ++ steps) e) ∧
    (∀ e, (g.run steps).size_target = some e →
      ResolvedIn g.self "size_target" (S ++ steps) e) := by
  induction steps generalizing S g with
  | nil => simpa [ElementHandle.run] using ⟨hm, hs⟩
  | cons s rest ih =>
    obtain ⟨hm1, hs1⟩ := resolved_step S g s hm hs
    have hself := step_self g s
    have := ih (S ++ [s]) (g.step s) (by rw [hself]; exact hm1) (by rw [hself]; exact hs1)
    rw [hself] at this
    simpa [ElementHandle.run] using this

theorem moveWrites_congr (g g' : ElementHandle A) (x y : Int)
    (ht : g'.move_target = g.move_target)
    (hp : g'.move_original_position = g.move_original_position) :
    moveWrites g' x y = moveWrites g x y := by
  unfold moveWrites
  rw [ht, hp]

theorem sizeWrites_congr (g g' : ElementHandle A) (w : World A) (x y : Int)
    (ht : g'.size_target = g.size_target)
    (hp : g'.size_original_size = g.size_original_size) :
    sizeWrites g' w x y = sizeWrites g w x y := by
  unfold sizeWrites
  rw [ht, hp]

theorem filter_isMoveWrite_moveWrites (g : ElementHandle A) (x y : Int) :
    (moveWrites g x y).filter Call.isMoveWrite = moveWrites g x y := by
  unfold moveWrites
  cases g.move_target <;> simp [Call.isMoveWrite]

theorem filter_isSizeWrite_moveWrites (g : ElementHandle A) (x y : Int) :
    (moveWrites g x y).filter Call.isSizeWrite = [] := by
  unfold moveWrites
  cases g.move_target <;> simp [Call.isSizeWrite]

theorem filter_isMoveWrite_marginWrite (w : World A) (t : ElementRef) (edge : Box.Edge) :
    (marginWrite w t edge).filter Call.isMoveWrite = [] := by
  unfold marginWrite
  split_ifs <;> cases edge <;> simp [Call.isMoveWrite, marginProperty]

theorem filter_isSizeWrite_marginWrite (w : World A) (t : ElementRef) (edge : Box.Edge) :
    (marginWrite w t edge).filter Call.isSizeWrite = marginWrite w t edge := by
  unfold marginWrite
  split_ifs <;> cases edge <;> simp [Call.isSizeWrite, marginProperty]

theorem filter_isMoveWrite_sizeWrites (g : ElementHandle A) (w : World A) (x y : Int) :
    (sizeWrites g w x y).filter Call.isMoveWrite = [] := by
  unfold sizeWrites
  cases g.size_target with
  | none => rfl
  | some t =>
    simp only [List.filter_append, filter_isMoveWrite_marginWrite, List.nil_append]
    simp [Call.isMoveWrite]

theorem filter_isSizeWrite_sizeWrites (g : ElementHandle A) (w : World A) (x y : Int) :
    (sizeWrites g w x y).filter Call.isSizeWrite = sizeWrites g w x y := by
  unfold sizeWrites
  cases g.size_target with
  | none => rfl
  | some t =>
    simp only [List.filter_append, filter_isSizeWrite_marginWrite]
    simp [Call.isSizeWrite]

theorem filter_isMoveWrite_callsOf_Drag (h : ElementHandle A) (w : World A) (ev : Event)
    (ht : ev.target = some h.self) (hid : ev.id = EventId.Drag) :
    (h.callsOf w ev).filter Call.isMoveWrite
      = moveWrites (LazyInitialisation h w) (ev.GetParameter "mouse_x" 0 - h.drag_start.x)
          (ev.GetParameter "mouse_y" 0 - h.drag_start.y) := by
  rw [callsOf_Drag h w ev ht hid]
  simp [List.filter_append, List.filter_cons, filter_isMoveWrite_moveWrites,
    filter_isMoveWrite_sizeWrites, Call.isMoveWrite]

theorem filter_isSizeWrite_callsOf_Drag (h : ElementHandle A) (w : World A) (ev : Event)
    (ht : ev.target = some h.self) (hid : ev.id = EventId.Drag) :
    (h.callsOf w ev).filter Call.isSizeWrite
      = sizeWrites (LazyInitialisation h w) w (ev.GetParameter "mouse_x" 0 - h.drag_start.x)
          (ev.GetParameter "mouse_y" 0 - h.drag_start.y) := by
  rw [callsOf_Drag h w ev ht hid]
  simp [List.filter_append, List.filter_cons, filter_isSizeWrite_moveWrites,
    filter_isSizeWrite_sizeWrites, Call.isSizeWrite]

theorem Dragstart_CapturedAt (g : ElementHandle A) (w : World A) (ev : Event) :
    CapturedAt (Dragstart g w ev) w ev := by
  have hf := Dragstart_fields g w ev
  have hm := Dragstart_move_original_position g w ev
  have hs := Dragstart_size_original_size g w ev
  refine ⟨hf.2.2.2.2, ?_, ?_⟩
  · intro t ht
    rw [hf.2.2.1] at ht
    rw [hm, ht]
  · intro t ht
    rw [hf.2.2.2.1] at ht
    rw [hs, ht]

theorem step_of_not_rebind (g : ElementHandle A) (w : World A) (changed : List String)
    (hs : (Step.OnAttributeChange w changed : Step A).isRebind = false) :
    g.step (Step.OnAttributeChange w changed) = g := by
  have hn : ¬ ("move_target" ∈ changed ∨ "size_target" ∈ changed) := by
    simpa [Step.isRebind] using hs
  simp only [ElementHandle.step, OnAttributeChange_fields, if_neg hn]

theorem step_of_initialised (g : ElementHandle A) (w : World A) (ev : Event)
    (hi : g.initialised = true) :
    g.step (Step.ProcessEvent w ev) =
      if ev.target = some g.self ∧ ev.id = EventId.Dragstart then
        Dragstart g (w.Element_ProcessEvent ev) ev
      else g := by
  show (g.ProcessEvent w ev).1 = _
  by_cases ht : ev.target = some g.self
  · by_cases h1 : ev.id = EventId.Dragstart
    · rw [ProcessEvent_Dragstart g w ev ht h1, LazyInitialisation_of_initialised g w hi]
      simp [ht, h1]
    · by_cases h2 : ev.id = EventId.Drag
      · rw [ProcessEvent_Drag g w ev ht h2, LazyInitialisation_of_initialised g w hi]
        simp [h1]
      · rw [ProcessEvent_other g w ev ht h1 h2, LazyInitialisation_of_initialised g w hi]
        simp [h1]
  · rw [ProcessEvent_not_target g w ev ht]
    simp [ht]

theorem steady_step (g : ElementHandle A) (s : Step A) (hi : g.initialised = true)
    (hs : s.isRebind = false) :
    (g.step s).initialised = true ∧ (g.step s).move_target = g.move_target ∧
    (g.step s).size_target = g.size_target := by
  cases s with
  | OnAttributeChange w changed =>
    rw [step_of_not_rebind g w changed hs]
    exact ⟨hi, rfl, rfl⟩
  | ProcessEvent w ev =>
    rw [step_of_initialised g w ev hi]
    split_ifs
    · have hf := Dragstart_fields g (w.Element_ProcessEvent ev) ev
      exact ⟨hf.2.1.trans hi, hf.2.2.1, hf.2.2.2.1⟩
    · exact ⟨hi, rfl, rfl⟩

theorem captured_step (S : List (Step A)) (g : ElementHandle A) (s : Step A)
    (hi : g.initialised = true) (hc : CapturedIn g S) (hs : s.isRebind = false) :
    CapturedIn (g.step s) (S ++ [s]) := by
  have hmono : CapturedIn g (S ++ [s]) := by
    obtain ⟨w, ev, hmem, h1, h2, h3⟩ := hc
    exact ⟨w, ev, List.mem_append_left _ hmem, h1, h2, h3⟩
  cases s with
  | OnAttributeChange w changed =>
    rw [step_of_not_rebind g w changed hs]
    exact hmono
  | ProcessEvent w ev =>
    rw [step_of_initialised g w ev hi]
    split_ifs with hd
    · refine ⟨w, ev, List.mem_append_right _ (List.mem_singleton.2 rfl), ?_, hd.2, ?_⟩
      · rw [(Dragstart_fields g (w.Element_ProcessEvent ev) ev).1]
        exact hd.1
      · exact Dragstart_CapturedAt g (w.Element_ProcessEvent ev) ev
    · exact hmono

theorem captured_run (steps : List (Step A)) (S : List (Step A)) (g : ElementHandle A)
    (hi : g.initialised = true) (hc : CapturedIn g S)
    (hs : ∀ s ∈ steps, s.isRebind = false) :
    (g.run steps).initialised = true ∧
    (g.run steps).move_target = g.move_target ∧
    (g.run steps).size_target = g.size_target ∧
    CapturedIn (g.run steps) (S ++ steps) := by
  induction steps generalizing S g with
  | nil => simpa [ElementHandle.run] using ⟨hi, hc⟩
  | cons s rest ih =>
    have hs1 : s.isRebind = false := hs s (List.mem_cons_self _ _)
    obtain ⟨hi1, hm1, hz1⟩ := steady_step g s hi hs1
    have hc1 := captured_step S g s hi hc hs1
    obtain ⟨r1, r2, r3, r4⟩ := ih (S ++ [s]) (g.step s) hi1 hc1
      (fun x hx => hs x (List.mem_cons_of_mem _ hx))
    refine ⟨r1, r2.trans hm1, r3.trans hz1, ?_⟩
    simpa [ElementHandle.run] using r4

theorem steady_run (steps : List (Step A)) (g : ElementHandle A)
    (hi : g.initialised = true) (hs : ∀ s ∈ steps, s.isRebind = false) :
    (g.run steps).initialised = true ∧
    (g.run steps).move_target = g.move_target ∧
    (g.run steps).size_target = g.size_target := by
  induction steps generalizing g with
  | nil => exact ⟨hi, rfl, rfl⟩
  | cons s rest ih =>
    obtain ⟨hi1, hm1, hz1⟩ := steady_step g s hi (hs s (List.mem_cons_self _ _))
    obtain ⟨r1, r2, r3⟩ := ih (g.step s) hi1 (fun x hx => hs x (List.mem_cons_of_mem _ hx))
    exact ⟨r1, r2.trans hm1, r3.trans hz1⟩

theorem ProcessEvent_targets_of_initialised (g : ElementHandle A) (w : World A) (ev : Event)
    (hi : g.initialised = true) :
    (g.ProcessEvent w ev).1.move_target = g.move_target ∧
    (g.ProcessEvent w ev).1.size_target = g.size_target := by
  obtain ⟨-, h2, h3⟩ := ProcessEvent_resolution g w ev
  rw [h2, h3, LazyInitialisation_of_initialised g w hi]
  simp

theorem LazyInitialisation_resolve (g : ElementHandle A) (w : World A)
    (hi : g.initialised = false) (hm : g.move_target = none) (hs : g.size_target = none)
    (hd : w.owner_document = true) :
    (LazyInitialisation g w).initialised = true ∧
    (LazyInitialisation g w).move_target = w.resolve "move_target" ∧
    (LazyInitialisation g w).size_target = w.resolve "size_target" := by
  rw [LazyInitialisation_initialised, LazyInitialisation_move_target g w hi hd,
    LazyInitialisation_size_target g w hi hd, hd, hm, hs]
  simp [World.resolve]

/-- Every property an event writes is written on a target the handle holds
when the event returns: Left and Top on the move target, the others on the
size target. -/
theorem writes_to_targets (g : ElementHandle A) (w : World A) (ev : Event)
    (e : ElementRef) (i : PropertyId) (p : Property A)
    (hmem : Call.SetProperty e i p ∈ g.callsOf w ev) :
    ((i = PropertyId.Left ∨ i = PropertyId.Top) →
      (g.ProcessEvent w ev).1.move_target = some e) ∧
    (¬ (i = PropertyId.Left ∨ i = PropertyId.Top) →
      (g.ProcessEvent w ev).1.size_target = some e) := by
  by_cases hdrag : ev.target = some g.self ∧ ev.id = EventId.Drag
  · obtain ⟨ht, hid⟩ := hdrag
    rw [callsOf_Drag g w ev ht hid] at hmem
    rw [ProcessEvent_Drag g w ev ht hid]
    simp only [List.mem_cons, List.mem_append, List.mem_singleton, List.not_mem_nil,
      or_false, mem_moveWrites, mem_sizeWrites, mem_marginWrite] at hmem
    rcases hmem with hmem | ⟨t, hb, hmem | hmem⟩ |
      ⟨t, hb, ⟨edge, -, hmem⟩ | hmem | hmem⟩ | hmem
    · cases hmem
    · injection hmem with e1 e2 _
      subst e1 e2
      exact ⟨fun _ => hb, fun hn => absurd (Or.inl rfl) hn⟩
    · injection hmem with e1 e2 _
      subst e1 e2
      exact ⟨fun _ => hb, fun hn => absurd (Or.inr rfl) hn⟩
    · injection hmem with e1 e2 _
      subst e1 e2
      obtain ⟨hL, hT, -, -⟩ := marginProperty_ne edge
      exact ⟨fun hi => (by rcases hi with hi | hi <;> [exact absurd hi hL; exact absurd hi hT]),
        fun _ => hb⟩
    · injection hmem with e1 e2 _
      subst e1 e2
      exact ⟨fun hi => (by rcases hi with hi | hi <;> cases hi), fun _ => hb⟩
    · injection hmem with e1 e2 _
      subst e1 e2
      exact ⟨fun hi => (by rcases hi with hi | hi <;> cases hi), fun _ => hb⟩
    · cases hmem
  · have hn : ev.target ≠ some g.self ∨ ev.id ≠ EventId.Drag := by
      by_cases ht : ev.target = some g.self
      · exact Or.inr (fun hid => hdrag ⟨ht, hid⟩)
      · exact Or.inl ht
    rw [callsOf_not_Drag g w ev hn] at hmem
    simp at hmem

theorem dragstartAt10_pointer :
    dragstartAt10.GetParameter "mouse_x" 0 = 10 ∧
    dragstartAt10.GetParameter "mouse_y" 0 = 10 := by decide

theorem dragAt40_pointer :
    dragAt40.GetParameter "mouse_x" 0 = 40 ∧ dragAt40.GetParameter "mouse_y" 0 = 5 := by
  decide

theorem dragFarLeft_pointer :
    dragFarLeft.GetParameter "mouse_x" 0 = -9990 ∧
    dragFarLeft.GetParameter "mouse_y" 0 = -9990 := by decide

end Lemmas

/-! ## The claims -/

section Claims

variable (A : FloatArith)

open ElementHandle

/-- C1: when a drag-start on the handle has left the handle initialised with
size target `t`, having captured the content size of `t`, a following drag
event on the handle sets the Width of `t` to
`Math::Max((float) RealToInteger(width + (mx - sx)), 0)` and its Height to
`Math::Max((float) RealToInteger(height + (my - sy)), 0)`, both in PX, where
(sx, sy) and (mx, my) are the pointers of the two events. -/
theorem C1_drag_sets_size (h : ElementHandle A) (w w' : World A) (start drag : Event)
    (t : ElementRef)
    (hstart_target : start.target = some h.self) (hstart_id : start.id = EventId.Dragstart)
    (hdrag_target : drag.target = some h.self) (hdrag_id : drag.id = EventId.Drag)
    (hinitialised : (h.ProcessEvent w start).1.initialised = true)
    (hbound : (h.ProcessEvent w start).1.size_target = some t) :
    (((h.ProcessEvent w start).1.ProcessEvent w' drag).2.elements t).properties PropertyId.Width
      = ⟨Variant.FLOAT (Math.Max A (A.ofInt (A.RealToInteger
          (A.add (w.elements t).box.content.x
            (A.ofInt (drag.GetParameter "mouse_x" 0 - start.GetParameter "mouse_x" 0)))))
          (A.ofInt 0)), Property.Unit.PX⟩ ∧
    (((h.ProcessEvent w start).1.ProcessEvent w' drag).2.elements t).properties PropertyId.Height
      = ⟨Variant.FLOAT (Math.Max A (A.ofInt (A.RealToInteger
          (A.add (w.elements t).box.content.y
            (A.ofInt (drag.GetParameter "mouse_y" 0 - start.GetParameter "mouse_y" 0)))))
          (A.ofInt 0)), Property.Unit.PX⟩ := by
  have hself : (h.ProcessEvent w start).1.self = h.self := ProcessEvent_self h w start
  rw [ProcessEvent_Drag _ w' drag (by rw [hself]; exact hdrag_target) hdrag_id]
  rw [LazyInitialisation_of_initialised _ w' hinitialised]
  rw [ProcessEvent_Dragstart h w start hstart_target hstart_id] at hbound ⊢
  have hf := Dragstart_fields (LazyInitialisation h w) (w.Element_ProcessEvent start) start
  have hs := Dragstart_size_original_size (LazyInitialisation h w)
    (w.Element_ProcessEvent start) start
  rw [hf.2.2.2.1] at hbound
  rw [hbound] at hs
  simp only [Drag_elements, DragSize_properties, hf.2.2.2.1, hf.2.2.2.2, hbound, hs,
    clampedSize, true_and]
  constructor <;> simp [World.Element_ProcessEvent]

/-- C1, on an example: content size (100, 50), drag-start at (10, 10), drag at
(40, 5) give Width 130 px and Height 45 px. -/
theorem C1_drag_sets_size_witness :
    (handle0.ProcessEvent sizeBox1 dragstartAt10).1.size_target = some 1 ∧
    (((handle0.ProcessEvent sizeBox1 dragstartAt10).1.ProcessEvent sizeBox1 dragAt40).2.elements
        1).properties PropertyId.Width
      = ⟨Variant.FLOAT (130 : ℚ), Property.Unit.PX⟩ ∧
    (((handle0.ProcessEvent sizeBox1 dragstartAt10).1.ProcessEvent sizeBox1 dragAt40).2.elements
        1).properties PropertyId.Height
      = ⟨Variant.FLOAT (45 : ℚ), Property.Unit.PX⟩ := by
  have key := C1_drag_sets_size ratArith handle0 sizeBox1 sizeBox1 dragstartAt10 dragAt40 1
    rfl rfl rfl rfl rfl rfl
  refine ⟨rfl, ?_, ?_⟩
  · rw [key.1, dragAt40_pointer.1, dragstartAt10_pointer.1]
    simp [sizeBox1, document, box1, Math.Max, ratArith]
    norm_num
  · rw [key.2, dragAt40_pointer.2, dragstartAt10_pointer.2]
    simp [sizeBox1, document, box1, Math.Max, ratArith]
    norm_num

/-- C2: when a drag-start on the handle has left the handle initialised with
move target `t`, having captured the offset position of `t`, a following drag
event on the handle sets the Left of `t` to `RealToInteger(ox + (mx - sx))` and
its Top to `RealToInteger(oy + (my - sy))`, both in PX, where (sx, sy) and
(mx, my) are the pointers of the two events. -/
theorem C2_drag_sets_position (h : ElementHandle A) (w w' : World A) (start drag : Event)
    (t : ElementRef)
    (hstart_target : start.target = some h.self) (hstart_id : start.id = EventId.Dragstart)
    (hdrag_target : drag.target = some h.self) (hdrag_id : drag.id = EventId.Drag)
    (hinitialised : (h.ProcessEvent w start).1.initialised = true)
    (hbound : (h.ProcessEvent w start).1.move_target = some t) :
    (((h.ProcessEvent w start).1.ProcessEvent w' drag).2.elements t).properties PropertyId.Left
      = ⟨Variant.INT (A.RealToInteger (A.add (w.elements t).offset_left
          (A.ofInt (drag.GetParameter "mouse_x" 0 - start.GetParameter "mouse_x" 0)))),
         Property.Unit.PX⟩ ∧
    (((h.ProcessEvent w start).1.ProcessEvent w' drag).2.elements t).properties PropertyId.Top
      = ⟨Variant.INT (A.RealToInteger (A.add (w.elements t).offset_top
          (A.ofInt (drag.GetParameter "mouse_y" 0 - start.GetParameter "mouse_y" 0)))),
         Property.Unit.PX⟩ := by
  have hself : (h.ProcessEvent w start).1.self = h.self := ProcessEvent_self h w start
  rw [ProcessEvent_Drag _ w' drag (by rw [hself]; exact hdrag_target) hdrag_id]
  rw [LazyInitialisation_of_initialised _ w' hinitialised]
  rw [ProcessEvent_Dragstart h w start hstart_target hstart_id] at hbound ⊢
  have hf := Dragstart_fields (LazyInitialisation h w) (w.Element_ProcessEvent start) start
  have hs := Dragstart_move_original_position (LazyInitialisation h w)
    (w.Element_ProcessEvent start) start
  rw [hf.2.2.1] at hbound
  rw [hbound] at hs
  simp only [Drag_elements, DragSize_properties, DragMove_properties, hf.2.2.1, hf.2.2.2.2,
    hbound, hs, true_and]
  constructor <;> simp [World.Element_ProcessEvent]

/-- C2, on an example: offset (20, 30), drag-start at (10, 10), drag at (40, 5)
give Left 50 px and Top 25 px. -/
theorem C2_drag_sets_position_witness :
    (handle0.ProcessEvent moveBox1 dragstartAt10).1.move_target = some 1 ∧
    (((handle0.ProcessEvent moveBox1 dragstartAt10).1.ProcessEvent moveBox1 dragAt40).2.elements
        1).properties PropertyId.Left
      = (⟨Variant.INT 50, Property.Unit.PX⟩ : Property ratArith) ∧
    (((handle0.ProcessEvent moveBox1 dragstartAt10).1.ProcessEvent moveBox1 dragAt40).2.elements
        1).properties PropertyId.Top
      = (⟨Variant.INT 25, Property.Unit.PX⟩ : Property ratArith) := by
  have key := C2_drag_sets_position ratArith handle0 moveBox1 moveBox1 dragstartAt10 dragAt40 1
    rfl rfl rfl rfl rfl rfl
  refine ⟨rfl, ?_, ?_⟩
  · rw [key.1, dragAt40_pointer.1, dragstartAt10_pointer.1]
    simp [moveBox1, document, box1, ratArith]
    norm_num
  · rw [key.2, dragAt40_pointer.2, dragstartAt10_pointer.2]
    simp [moveBox1, document, box1, ratArith]
    norm_num

/-- C3: for every state of the handle and every Drag event targeted at the
handle, the calls ProcessEvent makes are the base class call, then writes of
properties only, then one DispatchEvent of Handledrag from the handle with
`handle_x = mouse_x - drag_start.x` and `handle_y = mouse_y - drag_start.y`
(an absent `mouse_x` or `mouse_y` reads as 0): exactly one event is
dispatched, whatever the targets are. -/
theorem C3_drag_dispatches_once (h : ElementHandle A) (w : World A) (event : Event)
    (htarget : event.target = some h.self) (hid : event.id = EventId.Drag) :
    ∃ writes : List (Call A),
      (∀ c ∈ writes, ∃ e i p, c = Call.SetProperty e i p) ∧
      (h.ProcessEvent w event).2.calls
        = w.calls ++ Call.Element_ProcessEvent event :: writes ++
          [Call.DispatchEvent h.self EventId.Handledrag
            [("handle_x", (event.parameters.lookup "mouse_x").getD 0 - h.drag_start.x),
             ("handle_y", (event.parameters.lookup "mouse_y").getD 0 - h.drag_start.y)]] := by
  rw [ProcessEvent_Drag_calls h w event htarget hid]
  refine ⟨moveWrites (LazyInitialisation h w)
      (event.GetParameter "mouse_x" 0 - h.drag_start.x)
      (event.GetParameter "mouse_y" 0 - h.drag_start.y) ++
    sizeWrites (LazyInitialisation h w) w
      (event.GetParameter "mouse_x" 0 - h.drag_start.x)
      (event.GetParameter "mouse_y" 0 - h.drag_start.y), ?_, ?_⟩
  · intro c hc
    rcases List.mem_append.1 hc with hc | hc
    · exact all_SetProperty_moveWrites _ _ _ c hc
    · exact all_SetProperty_sizeWrites _ _ _ _ c hc
  · simp [Event.GetParameter]

/-- C3, on an example: a freshly constructed handle with no owner document and
no target receives a drag that carries `mouse_x = 7` only; the one event
dispatched has `handle_x = 7` and `handle_y = 0`. -/
theorem C3_drag_dispatches_once_witness :
    (handle0.ProcessEvent detached dragNoY).2.calls
        = [Call.Element_ProcessEvent dragNoY,
           Call.DispatchEvent 0 EventId.Handledrag [("handle_x", 7), ("handle_y", 0)]] ∧
    ∃ writes : List (Call ratArith),
      (∀ c ∈ writes, ∃ e i p, c = Call.SetProperty e i p) ∧
      (handle0.ProcessEvent detached dragNoY).2.calls
        = detached.calls ++ Call.Element_ProcessEvent dragNoY :: writes ++
          [Call.DispatchEvent handle0.self EventId.Handledrag
            [("handle_x", (dragNoY.parameters.lookup "mouse_x").getD 0 - handle0.drag_start.x),
             ("handle_y", (dragNoY.parameters.lookup "mouse_y").getD 0 - handle0.drag_start.y)]] :=
  ⟨by rfl, C3_drag_dispatches_once ratArith handle0 detached dragNoY rfl rfl⟩

/-- C4, as stated, fails: the size target `box2` has an `auto` top margin that
the box model resolves to 10.25 pixels; after a drag the margin is 10 px, the
value rounded by `Math::RealToInteger`, not the resolved value. -/
theorem C4_margin_freezing_counterexample :
    (handle0.ProcessEvent sizeBox2 dragAt40).1.size_target = some 2 ∧
    ((sizeBox2.elements 2).properties PropertyId.MarginTop).unit = Property.Unit.KEYWORD ∧
    (sizeBox2.elements 2).box.margin Box.Edge.TOP = (41 / 4 : ℚ) ∧
    ((handle0.ProcessEvent sizeBox2 dragAt40).2.elements 2).properties PropertyId.MarginTop
      = ⟨Variant.FLOAT (10 : ℚ), Property.Unit.PX⟩ ∧
    ((handle0.ProcessEvent sizeBox2 dragAt40).2.elements 2).properties PropertyId.MarginTop
      ≠ ⟨Variant.FLOAT ((sizeBox2.elements 2).box.margin Box.Edge.TOP), Property.Unit.PX⟩ := by
  have hbound : (handle0.ProcessEvent sizeBox2 dragAt40).1.size_target = some 2 := rfl
  have hbound2 : (LazyInitialisation handle0 sizeBox2).size_target = some 2 := rfl
  have hedge : (sizeBox2.elements 2).box.margin Box.Edge.TOP = (41 / 4 : ℚ) := rfl
  have hvalue :
      ((handle0.ProcessEvent sizeBox2 dragAt40).2.elements 2).properties PropertyId.MarginTop
        = ⟨Variant.FLOAT (10 : ℚ), Property.Unit.PX⟩ := by
    rw [ProcessEvent_Drag_properties handle0 sizeBox2 dragAt40 rfl rfl]
    simp only [DragSize_properties, DragMove_properties, DragMove_box, hbound2]
    simp [sizeBox2, document, box2, frozenMargin, ratArith]
    norm_num
  refine ⟨hbound, rfl, hedge, hvalue, ?_⟩
  rw [hvalue, hedge]
  intro hc
  have h1 : (10 : ℚ) = (41 / 4 : ℚ) := by
    injection hc with hc1
    injection hc1
  norm_num at h1

/-- C4, amended: for every Drag event on a handle whose size target is `t`,
a margin of `t` whose unit is KEYWORD before the event is written, and is
afterwards the PX value `(float) Math::RealToInteger(GetEdge(MARGIN, side))`,
the resolved margin rounded to an integer; a margin whose unit is not KEYWORD
(a pixel-valued one included) is written on no element and keeps its
property. -/
theorem C4_margin_freezing (h : ElementHandle A) (w : World A) (event : Event)
    (t : ElementRef) (edge : Box.Edge)
    (htarget : event.target = some h.self) (hid : event.id = EventId.Drag)
    (hbound : (h.ProcessEvent w event).1.size_target = some t) :
    (((w.elements t).properties (marginProperty edge)).unit = Property.Unit.KEYWORD →
      ((h.ProcessEvent w event).2.elements t).properties (marginProperty edge)
        = ⟨Variant.FLOAT (A.ofInt (A.RealToInteger ((w.elements t).box.margin edge))),
           Property.Unit.PX⟩ ∧
      Call.SetProperty t (marginProperty edge)
        ⟨Variant.FLOAT (A.ofInt (A.RealToInteger ((w.elements t).box.margin edge))),
         Property.Unit.PX⟩ ∈ h.callsOf w event) ∧
    (((w.elements t).properties (marginProperty edge)).unit ≠ Property.Unit.KEYWORD →
      ((h.ProcessEvent w event).2.elements t).properties (marginProperty edge)
        = (w.elements t).properties (marginProperty edge) ∧
      ∀ (e : ElementRef) (p : Property A),
        Call.SetProperty e (marginProperty edge) p ∉ h.callsOf w event) := by
  rw [ProcessEvent_Drag h w event htarget hid] at hbound
  simp only at hbound
  obtain ⟨hL, hT, hW, hH⟩ := marginProperty_ne edge
  constructor
  · intro hk
    constructor
    · rw [ProcessEvent_Drag_properties h w event htarget hid]
      simp only [DragSize_properties, DragMove_properties, DragMove_box, hbound]
      cases edge <;> simp_all [marginProperty, frozenMargin]
    · rw [callsOf_Drag h w event htarget hid]
      refine List.mem_cons_of_mem _ (List.mem_append_right _ (List.mem_append_left _ ?_))
      rw [mem_sizeWrites]
      exact ⟨t, hbound, Or.inl ⟨edge, (mem_marginWrite w t edge _).2 ⟨hk, rfl⟩⟩⟩
  · intro hk
    constructor
    · rw [ProcessEvent_Drag_properties h w event htarget hid]
      simp only [DragSize_properties, DragMove_properties, DragMove_box, hbound]
      cases edge <;> simp_all [marginProperty, frozenMargin]
    · intro e p hmem
      rw [callsOf_Drag h w event htarget hid] at hmem
      simp only [List.mem_cons, List.mem_append, List.mem_singleton, List.not_mem_nil,
        or_false, mem_moveWrites, mem_sizeWrites, mem_marginWrite, hbound,
        Option.some.injEq, exists_eq_left'] at hmem
      rcases hmem with hmem | ⟨t', -, hmem | hmem⟩ | (⟨edge', hk', hmem⟩ | hmem | hmem) | hmem
      · cases hmem
      · injection hmem with _ h2 _
        exact hL h2
      · injection hmem with _ h2 _
        exact hT h2
      · injection hmem with h1 h2 _
        have hedge := marginProperty_injective _ _ h2
        subst hedge
        exact hk hk'
      · injection hmem with _ h2 _
        exact hW h2
      · injection hmem with _ h2 _
        exact hH h2
      · cases hmem

/-- C4, amended, on an example: the bottom margin of `box2` is `auto` and is
frozen by the drag. -/
theorem C4_margin_freezing_witness :
    (handle0.ProcessEvent sizeBox2 dragAt40).1.size_target = some 2 ∧
    ((sizeBox2.elements 2).properties PropertyId.MarginBottom).unit = Property.Unit.KEYWORD ∧
    ((handle0.ProcessEvent sizeBox2 dragAt40).2.elements 2).properties PropertyId.MarginBottom
      = ⟨Variant.FLOAT (ratArith.ofInt
          (ratArith.RealToInteger ((sizeBox2.elements 2).box.margin Box.Edge.BOTTOM))),
         Property.Unit.PX⟩ :=
  ⟨rfl, rfl,
   ((C4_margin_freezing ratArith handle0 sizeBox2 dragAt40 2 Box.Edge.BOTTOM rfl rfl rfl).1
      rfl).1⟩

/-- C5: OnAttributeChange, for every state of the handle and every set of
changed attribute names: if the set contains "move_target" or "size_target",
then afterwards `initialised` is false and both targets are null; if it
contains neither, `initialised` and both targets are unchanged; in both cases
the drag anchor is unchanged. -/
theorem C5_attribute_change_resets (h : ElementHandle A) (w : World A)
    (changed_attributes : List String) :
    (("move_target" ∈ changed_attributes ∨ "size_target" ∈ changed_attributes) →
      (h.OnAttributeChange w changed_attributes).1.initialised = false ∧
      (h.OnAttributeChange w changed_attributes).1.move_target = none ∧
      (h.OnAttributeChange w changed_attributes).1.size_target = none) ∧
    (¬ ("move_target" ∈ changed_attributes ∨ "size_target" ∈ changed_attributes) →
      (h.OnAttributeChange w changed_attributes).1.initialised = h.initialised ∧
      (h.OnAttributeChange w changed_attributes).1.move_target = h.move_target ∧
      (h.OnAttributeChange w changed_attributes).1.size_target = h.size_target) ∧
    (h.OnAttributeChange w changed_attributes).1.drag_start = h.drag_start ∧
    (h.OnAttributeChange w changed_attributes).1.move_original_position
      = h.move_original_position ∧
    (h.OnAttributeChange w changed_attributes).1.size_original_size
      = h.size_original_size := by
  rw [OnAttributeChange_fields]
  by_cases hc : "move_target" ∈ changed_attributes ∨ "size_target" ∈ changed_attributes
  · simp [hc]
  · simp [hc]

/-- C5, on an example: a handle bound to `box1` by a drag-start loses its
target when "size_target" is reported as changed, and keeps it when only
"id" is. -/
theorem C5_attribute_change_resets_witness :
    (handle0.ProcessEvent sizeBox1 dragstartAt10).1.size_target = some 1 ∧
    (((handle0.ProcessEvent sizeBox1 dragstartAt10).1.OnAttributeChange sizeBox1
        ["size_target"]).1.initialised = false ∧
     ((handle0.ProcessEvent sizeBox1 dragstartAt10).1.OnAttributeChange sizeBox1
        ["size_target"]).1.move_target = none ∧
     ((handle0.ProcessEvent sizeBox1 dragstartAt10).1.OnAttributeChange sizeBox1
        ["size_target"]).1.size_target = none) ∧
    ((handle0.ProcessEvent sizeBox1 dragstartAt10).1.OnAttributeChange sizeBox1
        ["id"]).1.size_target = some 1 :=
  ⟨rfl,
   (C5_attribute_change_resets ratArith (handle0.ProcessEvent sizeBox1 dragstartAt10).1
      sizeBox1 ["size_target"]).1 (by decide),
   ((C5_attribute_change_resets ratArith (handle0.ProcessEvent sizeBox1 dragstartAt10).1
      sizeBox1 ["id"]).2.1 (by decide)).2.2⟩

/-- C6, as stated, fails: a handle that is not initialised and has no owner
document processes an event targeted at it and is still not initialised
afterwards; its move target stays null although the `move_target` attribute
names an element of the document. Moreover the lazy initialisation assigns a
target only when its attribute is not empty: from a state with `initialised`
false that holds a size target (no run of the handle produces one), the size
target is kept, not null, when the `size_target` attribute is empty. -/
theorem C6_lazy_resolution_counterexample :
    (handle0.initialised = false ∧
     dragAt40.target = some handle0.self ∧
     detached.GetElementById (detached.GetAttribute "move_target" "") = some 1 ∧
     (handle0.ProcessEvent detached dragAt40).1.initialised = false ∧
     (handle0.ProcessEvent detached dragAt40).1.move_target = none) ∧
    (strayHandle.initialised = false ∧
     dragAt40.target = some strayHandle.self ∧
     moveBox1.GetAttribute "size_target" "" = "" ∧
     (strayHandle.ProcessEvent moveBox1 dragAt40).1.initialised = true ∧
     (strayHandle.ProcessEvent moveBox1 dragAt40).1.size_target = some 2) := by
  decide

/-- C6, amended: for every reachable state of the handle with `initialised`
false and every event targeted at the handle: if the handle has an owner
document, the event ends with `initialised` true, the move target equal to
the result of looking up the `move_target` attribute when that attribute is
not empty (null when the lookup fails) and null when it is empty, and
likewise the size target; if the handle has no owner document, `initialised`
stays false and both targets stay null. ProcessEvent is a total function: no
error is raised. -/
theorem C6_lazy_resolution (h : ElementHandle A) (w : World A) (event : Event)
    (hreachable : h.Reachable) (hinitialised : h.initialised = false)
    (htarget : event.target = some h.self) :
    (w.owner_document = true →
      (h.ProcessEvent w event).1.initialised = true ∧
      (h.ProcessEvent w event).1.move_target
        = (if w.GetAttribute "move_target" "" = "" then none
           else w.GetElementById (w.GetAttribute "move_target" "")) ∧
      (h.ProcessEvent w event).1.size_target
        = (if w.GetAttribute "size_target" "" = "" then none
           else w.GetElementById (w.GetAttribute "size_target" ""))) ∧
    (w.owner_document = false →
      (h.ProcessEvent w event).1.initialised = false ∧
      (h.ProcessEvent w event).1.move_target = none ∧
      (h.ProcessEvent w event).1.size_target = none) := by
  obtain ⟨hm, hs⟩ := unresolved_of_reachable h hreachable hinitialised
  obtain ⟨h1, h2, h3⟩ := ProcessEvent_resolution h w event
  rw [h1, h2, h3]
  simp only [htarget, if_true]
  constructor
  · intro hd
    rw [LazyInitialisation_initialised, LazyInitialisation_move_target h w hinitialised hd,
      LazyInitialisation_size_target h w hinitialised hd, hm, hs, hd]
    simp
  · intro hd
    rw [LazyInitialisation_of_detached h w hd]
    exact ⟨hinitialised, hm, hs⟩

/-- C6, amended, on an example: the fresh handle with `move_target="box1"`
resolves its move target to element 1 and its size target to null. -/
theorem C6_lazy_resolution_witness :
    handle0.initialised = false ∧ moveBox1.owner_document = true ∧
    (handle0.ProcessEvent moveBox1 dragAt40).1.initialised = true ∧
    (handle0.ProcessEvent moveBox1 dragAt40).1.move_target
      = (if moveBox1.GetAttribute "move_target" "" = "" then none
         else moveBox1.GetElementById (moveBox1.GetAttribute "move_target" "")) ∧
    (handle0.ProcessEvent moveBox1 dragAt40).1.size_target
      = (if moveBox1.GetAttribute "size_target" "" = "" then none
         else moveBox1.GetElementById (moveBox1.GetAttribute "size_target" "")) :=
  ⟨rfl, rfl,
   (C6_lazy_resolution ratArith handle0 moveBox1 dragAt40 handle0_reachable rfl rfl).1 rfl⟩

/-- C7: for every state of the handle with `initialised` true, processing an
event of any kind, in any world, leaves `initialised` and both targets
unchanged; and of two consecutive events, processed from any state in any
two worlds, at least one leaves the three unchanged: the targets are resolved
at most once. -/
theorem C7_initialisation_idempotent (h : ElementHandle A) (w1 w2 : World A)
    (event1 event2 : Event) :
    (h.initialised = true →
      (h.ProcessEvent w1 event1).1.initialised = true ∧
      (h.ProcessEvent w1 event1).1.move_target = h.move_target ∧
      (h.ProcessEvent w1 event1).1.size_target = h.size_target) ∧
    (((h.ProcessEvent w1 event1).1.initialised = h.initialised ∧
      (h.ProcessEvent w1 event1).1.move_target = h.move_target ∧
      (h.ProcessEvent w1 event1).1.size_target = h.size_target) ∨
     (((h.ProcessEvent w1 event1).1.ProcessEvent w2 event2).1.initialised
        = (h.ProcessEvent w1 event1).1.initialised ∧
      ((h.ProcessEvent w1 event1).1.ProcessEvent w2 event2).1.move_target
        = (h.ProcessEvent w1 event1).1.move_target ∧
      ((h.ProcessEvent w1 event1).1.ProcessEvent w2 event2).1.size_target
        = (h.ProcessEvent w1 event1).1.size_target)) := by
  have key : ∀ (g : ElementHandle A) (v : World A) (ev : Event), g.initialised = true →
      (g.ProcessEvent v ev).1.initialised = g.initialised ∧
      (g.ProcessEvent v ev).1.move_target = g.move_target ∧
      (g.ProcessEvent v ev).1.size_target = g.size_target := by
    intro g v ev hg
    obtain ⟨h1, h2, h3⟩ := ProcessEvent_resolution g v ev
    rw [h1, h2, h3, LazyInitialisation_of_initialised g v hg]
    simp
  constructor
  · intro hi
    have hk := key h w1 event1 hi
    exact ⟨hk.1.trans hi, hk.2⟩
  · cases hi1 : (h.ProcessEvent w1 event1).1.initialised with
    | true => exact Or.inr (by simpa [hi1] using key _ w2 event2 hi1)
    | false =>
      left
      obtain ⟨h1, h2, h3⟩ := ProcessEvent_resolution h w1 event1
      rw [h1] at hi1
      rw [h2, h3]
      by_cases ht : event1.target = some h.self
      · simp only [ht, if_true] at hi1 ⊢
        rw [LazyInitialisation_initialised] at hi1
        have hd : w1.owner_document = false := by
          cases hx : w1.owner_document <;> simp_all
        have hh : h.initialised = false := by
          cases hx : h.initialised <;> simp_all
        rw [LazyInitialisation_of_detached h w1 hd]
        simp [hh]
      · simp only [ht, if_false] at hi1
        simp [ht, hi1]

/-- C7, on an example: the handle bound to `box1` by a drag-start keeps its
size target when the next event is processed in a document whose
`size_target` attribute names another element. -/
theorem C7_initialisation_idempotent_witness :
    (handle0.ProcessEvent sizeBox1 dragstartAt10).1.initialised = true ∧
    sizeBox2.GetElementById (sizeBox2.GetAttribute "size_target" "") = some 2 ∧
    ((handle0.ProcessEvent sizeBox1 dragstartAt10).1.ProcessEvent sizeBox2 dragAt40).1.size_target
      = some 1 :=
  ⟨rfl, rfl,
   ((C7_initialisation_idempotent ratArith (handle0.ProcessEvent sizeBox1 dragstartAt10).1
      sizeBox2 sizeBox2 dragAt40 dragAt40).1 rfl).2.2⟩

/-- C9, as stated, fails: the size target `box2` has content size
(20000, 20000); after a drag-start at (10, 10), a drag at (-9990, -9990), whose
delta is (-10000, -10000), sets Width to 10000 px, not to 0 px. -/
theorem C9_negative_size_clamp_counterexample :
    (handle0.ProcessEvent sizeBox2 dragstartAt10).1.size_target = some 2 ∧
    dragFarLeft.GetParameter "mouse_x" 0 - dragstartAt10.GetParameter "mouse_x" 0 = -10000 ∧
    dragFarLeft.GetParameter "mouse_y" 0 - dragstartAt10.GetParameter "mouse_y" 0 = -10000 ∧
    (((handle0.ProcessEvent sizeBox2 dragstartAt10).1.ProcessEvent sizeBox2
        dragFarLeft).2.elements 2).properties PropertyId.Width
      = ⟨Variant.FLOAT (10000 : ℚ), Property.Unit.PX⟩ ∧
    (((handle0.ProcessEvent sizeBox2 dragstartAt10).1.ProcessEvent sizeBox2
        dragFarLeft).2.elements 2).properties PropertyId.Width
      ≠ ⟨Variant.FLOAT (ratArith.ofInt 0), Property.Unit.PX⟩ := by
  have hvalue :
      (((handle0.ProcessEvent sizeBox2 dragstartAt10).1.ProcessEvent sizeBox2
          dragFarLeft).2.elements 2).properties PropertyId.Width
        = ⟨Variant.FLOAT (10000 : ℚ), Property.Unit.PX⟩ := by
    rw [(drag_after_dragstart_size handle0 sizeBox2 sizeBox2 dragstartAt10 dragFarLeft 2
      rfl rfl rfl rfl rfl rfl).1, dragFarLeft_pointer.1, dragstartAt10_pointer.1]
    simp [sizeBox2, document, box2, clampedSize, Math.Max, ratArith]
    norm_num
  refine ⟨rfl, by decide, by decide, hvalue, ?_⟩
  rw [hvalue]
  intro hc
  simp [ratArith] at hc

/-- C9, amended: when a drag-start on the handle has left the handle
initialised with size target `t`, having captured the content size of `t`, a
following drag event on the handle writes a Width and a Height in PX that are
never negative, whatever the pointer delta; when the delta is -10000 in a
direction, the value written in that direction is 0 provided the captured
size plus the delta rounds to at most 0 (`RealToInteger(size - 10000) ≤ 0`). -/
theorem C9_negative_size_clamp (h : ElementHandle A) (w w' : World A) (start drag : Event)
    (t : ElementRef)
    (hstart_target : start.target = some h.self) (hstart_id : start.id = EventId.Dragstart)
    (hdrag_target : drag.target = some h.self) (hdrag_id : drag.id = EventId.Drag)
    (hinitialised : (h.ProcessEvent w start).1.initialised = true)
    (hbound : (h.ProcessEvent w start).1.size_target = some t) :
    ∃ width height : A.F,
      (((h.ProcessEvent w start).1.ProcessEvent w' drag).2.elements t).properties
          PropertyId.Width = ⟨Variant.FLOAT width, Property.Unit.PX⟩ ∧
      (((h.ProcessEvent w start).1.ProcessEvent w' drag).2.elements t).properties
          PropertyId.Height = ⟨Variant.FLOAT height, Property.Unit.PX⟩ ∧
      A.gt (A.ofInt 0) width = false ∧
      A.gt (A.ofInt 0) height = false ∧
      (drag.GetParameter "mouse_x" 0 - start.GetParameter "mouse_x" 0 = -10000 →
        A.RealToInteger (A.add (w.elements t).box.content.x (A.ofInt (-10000))) ≤ 0 →
        width = A.ofInt 0) ∧
      (drag.GetParameter "mouse_y" 0 - start.GetParameter "mouse_y" 0 = -10000 →
        A.RealToInteger (A.add (w.elements t).box.content.y (A.ofInt (-10000))) ≤ 0 →
        height = A.ofInt 0) := by
  obtain ⟨hw, hh⟩ := drag_after_dragstart_size h w w' start drag t hstart_target hstart_id
    hdrag_target hdrag_id hinitialised hbound
  refine ⟨_, _, hw, hh, Max_not_negative _, Max_not_negative _, ?_, ?_⟩
  · intro hd hle
    rw [hd]
    exact Max_eq_zero _ hle
  · intro hd hle
    rw [hd]
    exact Max_eq_zero _ hle

/-- C9, amended, on an example: content size (100, 50), drag-start at
(10, 10), drag at (-9990, -9990) give Width 0 px and Height 0 px. -/
theorem C9_negative_size_clamp_witness :
    (handle0.ProcessEvent sizeBox1 dragstartAt10).1.size_target = some 1 ∧
    (((handle0.ProcessEvent sizeBox1 dragstartAt10).1.ProcessEvent sizeBox1
        dragFarLeft).2.elements 1).properties PropertyId.Width
      = ⟨Variant.FLOAT (ratArith.ofInt 0), Property.Unit.PX⟩ ∧
    (((handle0.ProcessEvent sizeBox1 dragstartAt10).1.ProcessEvent sizeBox1
        dragFarLeft).2.elements 1).properties PropertyId.Height
      = ⟨Variant.FLOAT (ratArith.ofInt 0), Property.Unit.PX⟩ := by
  obtain ⟨width, height, hw, hh, -, -, hzw, hzh⟩ :=
    C9_negative_size_clamp ratArith handle0 sizeBox1 sizeBox1 dragstartAt10 dragFarLeft 1
      rfl rfl rfl rfl rfl rfl
  have h1 : width = ratArith.ofInt 0 := by
    apply hzw (by decide)
    simp [sizeBox1, document, box1, ratArith]
    norm_num
  have h2 : height = ratArith.ofInt 0 := by
    apply hzh (by decide)
    simp [sizeBox1, document, box1, ratArith]
    norm_num
  rw [h1] at hw
  rw [h2] at hh
  exact ⟨rfl, hw, hh⟩

/-- C10, as stated, fails in two ways. The handle is bound to `box1` as move
target, then "move_target" is reported as changed. (1) The next event on the
handle arrives while the handle has no owner document: it resolves nothing,
the handle stays uninitialised with a null move target although the attribute
names element 1. (2) The next event arrives in a document where the
`move_target` attribute names `box1` again: the drag writes Left on element
1, the element the handle referenced before the rebind. -/
theorem C10_rebinding_counterexample :
    (handle0.ProcessEvent moveBox1 dragstartAt10).1.move_target = some 1 ∧
    rebound = ((handle0.ProcessEvent moveBox1 dragstartAt10).1.OnAttributeChange moveBox1
      ["move_target"]).1 ∧
    (detached.resolve "move_target" = some 1 ∧
     dragAt40.target = some rebound.self ∧
     (rebound.ProcessEvent detached dragAt40).1.initialised = false ∧
     (rebound.ProcessEvent detached dragAt40).1.move_target = none) ∧
    (moveBox1.resolve "move_target" = some 1 ∧
     ∃ p : Property ratArith,
      Call.SetProperty 1 PropertyId.Left p ∈ rebound.callsOf moveBox1 dragAt40) := by
  refine ⟨rfl, rfl, ⟨by decide, rfl, rfl, rfl⟩, by decide, ?_⟩
  refine ⟨movedPosition ratArith (20 : ℚ) 30, ?_⟩
  rw [callsOf_Drag rebound moveBox1 dragAt40 rfl rfl]
  refine List.mem_cons_of_mem _ (List.mem_append_left _ ?_)
  rw [mem_moveWrites]
  exact ⟨1, rfl, Or.inl rfl⟩

/-- C10, amended: let OnAttributeChange report "move_target" or "size_target"
as changed, and let `event` be the next event targeted at the handle.

If the handle then has an owner document: the event ends with `initialised`
true and with the two targets equal to what the `move_target` and
`size_target` attributes resolve to in the world of the event; every Left or
Top the event writes is written on that move target and every Width, Height
or margin on that size target; after any later calls that report neither
attribute as changed the handle still holds these two targets; every Left or
Top a later event then writes is written on that same move target and every
Width, Height or margin on that same size target; and an element the handle
held as move (size) target before the rebind receives no Left or Top (no
Width, Height or margin) from the event or from the later event, unless the
attribute resolved to that element at the event.

If the handle has no owner document: the event leaves `initialised` false
and both targets null, and writes no property.

In both cases and whatever calls follow the rebind, further reports
included, every Left or Top an event writes goes to an element that the
`move_target` attribute resolved to at an event processed after the rebind,
and every Width, Height or margin to an element that the `size_target`
attribute resolved to at such an event. -/
theorem C10_rebinding (h : ElementHandle A) (w0 : World A) (changed_attributes : List String)
    (w : World A) (event : Event) (steps : List (Step A)) (w' : World A) (later : Event)
    (others : List (Step A))
    (hchanged : "move_target" ∈ changed_attributes ∨ "size_target" ∈ changed_attributes) :
    (event.target = some h.self → w.owner_document = true →
        (∀ s ∈ steps, s.isRebind = false) →
      (((h.OnAttributeChange w0 changed_attributes).1.ProcessEvent w event).1.initialised
          = true ∧
       ((h.OnAttributeChange w0 changed_attributes).1.ProcessEvent w event).1.move_target
          = w.resolve "move_target" ∧
       ((h.OnAttributeChange w0 changed_attributes).1.ProcessEvent w event).1.size_target
          = w.resolve "size_target") ∧
      (∀ (e : ElementRef) (i : PropertyId) (p : Property A),
        Call.SetProperty e i p ∈ (h.OnAttributeChange w0 changed_attributes).1.callsOf w event →
        ((i = PropertyId.Left ∨ i = PropertyId.Top) → w.resolve "move_target" = some e) ∧
        (¬ (i = PropertyId.Left ∨ i = PropertyId.Top) → w.resolve "size_target" = some e)) ∧
      ((((h.OnAttributeChange w0 changed_attributes).1.ProcessEvent w event).1.run
          steps).initialised = true ∧
       (((h.OnAttributeChange w0 changed_attributes).1.ProcessEvent w event).1.run
          steps).move_target = w.resolve "move_target" ∧
       (((h.OnAttributeChange w0 changed_attributes).1.ProcessEvent w event).1.run
          steps).size_target = w.resolve "size_target") ∧
      (∀ (e : ElementRef) (i : PropertyId) (p : Property A),
        Call.SetProperty e i p ∈
          (((h.OnAttributeChange w0 changed_attributes).1.ProcessEvent w event).1.run
            steps).callsOf w' later →
        ((i = PropertyId.Left ∨ i = PropertyId.Top) → w.resolve "move_target" = some e) ∧
        (¬ (i = PropertyId.Left ∨ i = PropertyId.Top) → w.resolve "size_target" = some e)) ∧
      (∀ (e0 : ElementRef), h.move_target = some e0 → w.resolve "move_target" ≠ some e0 →
        ∀ (i : PropertyId) (p : Property A), (i = PropertyId.Left ∨ i = PropertyId.Top) →
          Call.SetProperty e0 i p ∉
            (h.OnAttributeChange w0 changed_attributes).1.callsOf w event ∧
          Call.SetProperty e0 i p ∉
            (((h.OnAttributeChange w0 changed_attributes).1.ProcessEvent w event).1.run
              steps).callsOf w' later) ∧
      (∀ (e0 : ElementRef), h.size_target = some e0 → w.resolve "size_target" ≠ some e0 →
        ∀ (i : PropertyId) (p : Property A), ¬ (i = PropertyId.Left ∨ i = PropertyId.Top) →
          Call.SetProperty e0 i p ∉
            (h.OnAttributeChange w0 changed_attributes).1.callsOf w event ∧
          Call.SetProperty e0 i p ∉
            (((h.OnAttributeChange w0 changed_attributes).1.ProcessEvent w event).1.run
              steps).callsOf w' later)) ∧
    (event.target = some h.self → w.owner_document = false →
      ((h.OnAttributeChange w0 changed_attributes).1.ProcessEvent w event).1.initialised
        = false ∧
      ((h.OnAttributeChange w0 changed_attributes).1.ProcessEvent w event).1.move_target
        = none ∧
      ((h.OnAttributeChange w0 changed_attributes).1.ProcessEvent w event).1.size_target
        = none ∧
      ∀ (e : ElementRef) (i : PropertyId) (p : Property A),
        Call.SetProperty e i p ∉
          (h.OnAttributeChange w0 changed_attributes).1.callsOf w event) ∧
    (∀ (e : ElementRef) (i : PropertyId) (p : Property A),
      Call.SetProperty e i p ∈
        ((h.OnAttributeChange w0 changed_attributes).1.run others).callsOf w' later →
      ((i = PropertyId.Left ∨ i = PropertyId.Top) →
        ResolvedIn h.self "move_target" (others ++ [Step.ProcessEvent w' later]) e) ∧
      (¬ (i = PropertyId.Left ∨ i = PropertyId.Top) →
        ResolvedIn h.self "size_target" (others ++ [Step.ProcessEvent w' later]) e)) := by
  have hfields := OnAttributeChange_fields h w0 changed_attributes
  rw [if_pos hchanged] at hfields
  have hi1 : (h.OnAttributeChange w0 changed_attributes).1.initialised = false := by
    rw [hfields]
  have hm1 : (h.OnAttributeChange w0 changed_attributes).1.move_target = none := by
    rw [hfields]
  have hs1 : (h.OnAttributeChange w0 changed_attributes).1.size_target = none := by
    rw [hfields]
  have hself1 : (h.OnAttributeChange w0 changed_attributes).1.self = h.self := by
    rw [hfields]
  clear hfields
  generalize (h.OnAttributeChange w0 changed_attributes).1 = h1 at hi1 hm1 hs1 hself1 ⊢
  refine ⟨?_, ?_, ?_⟩
  · intro ht hd hsteps
    obtain ⟨r1, r2, r3⟩ := ProcessEvent_resolution h1 w event
    obtain ⟨l1, l2, l3⟩ := LazyInitialisation_resolve h1 w hi1 hm1 hs1 hd
    have ha : (h1.ProcessEvent w event).1.initialised = true ∧
        (h1.ProcessEvent w event).1.move_target = w.resolve "move_target" ∧
        (h1.ProcessEvent w event).1.size_target = w.resolve "size_target" := by
      rw [r1, r2, r3]
      simp only [hself1, ht, if_true]
      exact ⟨l1, l2, l3⟩
    have hb : ∀ (e : ElementRef) (i : PropertyId) (p : Property A),
        Call.SetProperty e i p ∈ h1.callsOf w event →
        ((i = PropertyId.Left ∨ i = PropertyId.Top) → w.resolve "move_target" = some e) ∧
        (¬ (i = PropertyId.Left ∨ i = PropertyId.Top) → w.resolve "size_target" = some e) := by
      intro e i p hmem
      have hw := writes_to_targets h1 w event e i p hmem
      rw [ha.2.1, ha.2.2] at hw
      exact hw
    obtain ⟨c1, c2, c3⟩ := steady_run steps (h1.ProcessEvent w event).1 ha.1 hsteps
    have hc : ((h1.ProcessEvent w event).1.run steps).initialised = true ∧
        ((h1.ProcessEvent w event).1.run steps).move_target = w.resolve "move_target" ∧
        ((h1.ProcessEvent w event).1.run steps).size_target = w.resolve "size_target" :=
      ⟨c1, c2.trans ha.2.1, c3.trans ha.2.2⟩
    have hd2 : ∀ (e : ElementRef) (i : PropertyId) (p : Property A),
        Call.SetProperty e i p ∈ ((h1.ProcessEvent w event).1.run steps).callsOf w' later →
        ((i = PropertyId.Left ∨ i = PropertyId.Top) → w.resolve "move_target" = some e) ∧
        (¬ (i = PropertyId.Left ∨ i = PropertyId.Top) → w.resolve "size_target" = some e) := by
      intro e i p hmem
      have hw := writes_to_targets _ w' later e i p hmem
      obtain ⟨t1, t2⟩ := ProcessEvent_targets_of_initialised
        ((h1.ProcessEvent w event).1.run steps) w' later hc.1
      rw [t1, t2, hc.2.1, hc.2.2] at hw
      exact hw
    refine ⟨ha, hb, hc, hd2, ?_, ?_⟩
    · intro e0 _ hne i p hi
      exact ⟨fun hmem => hne ((hb e0 i p hmem).1 hi), fun hmem => hne ((hd2 e0 i p hmem).1 hi)⟩
    · intro e0 _ hne i p hi
      exact ⟨fun hmem => hne ((hb e0 i p hmem).2 hi), fun hmem => hne ((hd2 e0 i p hmem).2 hi)⟩
  · intro ht hd
    obtain ⟨r1, r2, r3⟩ := ProcessEvent_resolution h1 w event
    have ha : (h1.ProcessEvent w event).1.initialised = false ∧
        (h1.ProcessEvent w event).1.move_target = none ∧
        (h1.ProcessEvent w event).1.size_target = none := by
      rw [r1, r2, r3]
      simp only [hself1, ht, if_true]
      rw [LazyInitialisation_of_detached h1 w hd]
      exact ⟨hi1, hm1, hs1⟩
    refine ⟨ha.1, ha.2.1, ha.2.2, ?_⟩
    intro e i p hmem
    have hw := writes_to_targets h1 w event e i p hmem
    rw [ha.2.1, ha.2.2] at hw
    by_cases hi : i = PropertyId.Left ∨ i = PropertyId.Top
    · cases hw.1 hi
    · cases hw.2 hi
  · intro e i p hmem
    have hrun := resolved_run others [] h1
      (fun e he => by rw [hm1] at he; cases he) (fun e he => by rw [hs1] at he; cases he)
    have hself := run_self others h1
    simp only [List.nil_append] at hrun
    rw [hself1] at hrun hself
    generalize h1.run others = g at hmem hrun hself
    obtain ⟨hm, hs⟩ := resolved_step others g (Step.ProcessEvent w' later)
      (by rw [hself]; exact hrun.1) (by rw [hself]; exact hrun.2)
    rw [hself] at hm hs
    have hw := writes_to_targets g w' later e i p hmem
    exact ⟨fun hi => hm e (hw.1 hi), fun hi => hs e (hw.2 hi)⟩

/-- C10, amended, on an example: the handle bound to `box1` as move target is
told that "move_target" changed; the next event, a drag in a document where
only `size_target="box2"` is set, leaves it with no move target and with
element 2 as size target; after a report that "class" changed a second drag
writes no Left on element 1. -/
theorem C10_rebinding_witness :
    (handle0.ProcessEvent moveBox1 dragstartAt10).1.move_target = some 1 ∧
    dragAt40.target = some (handle0.ProcessEvent moveBox1 dragstartAt10).1.self ∧
    sizeBox2.owner_document = true ∧
    sizeBox2.resolve "move_target" = none ∧
    sizeBox2.resolve "size_target" = some 2 ∧
    ((((handle0.ProcessEvent moveBox1 dragstartAt10).1.OnAttributeChange moveBox1
        ["move_target"]).1.ProcessEvent sizeBox2 dragAt40).1.initialised = true ∧
     (((handle0.ProcessEvent moveBox1 dragstartAt10).1.OnAttributeChange moveBox1
        ["move_target"]).1.ProcessEvent sizeBox2 dragAt40).1.move_target
        = sizeBox2.resolve "move_target" ∧
     (((handle0.ProcessEvent moveBox1 dragstartAt10).1.OnAttributeChange moveBox1
        ["move_target"]).1.ProcessEvent sizeBox2 dragAt40).1.size_target
        = sizeBox2.resolve "size_target") ∧
    (∀ (p : Property ratArith), Call.SetProperty 1 PropertyId.Left p ∉
      ((((handle0.ProcessEvent moveBox1 dragstartAt10).1.OnAttributeChange moveBox1
        ["move_target"]).1.ProcessEvent sizeBox2 dragAt40).1.run
          [Step.OnAttributeChange sizeBox2 ["class"]]).callsOf sizeBox2 dragAt40) := by
  have key := (C10_rebinding ratArith (handle0.ProcessEvent moveBox1 dragstartAt10).1 moveBox1
    ["move_target"] sizeBox2 dragAt40 [Step.OnAttributeChange sizeBox2 ["class"]] sizeBox2
    dragAt40 [] (Or.inl (by decide))).1 rfl rfl
    (by intro s hs; rw [List.mem_singleton.1 hs]; decide)
  have hm : sizeBox2.resolve "move_target" = none := by decide
  have hs : sizeBox2.resolve "size_target" = some 2 := by decide
  refine ⟨rfl, rfl, rfl, hm, hs, key.1, ?_⟩
  intro p
  exact (key.2.2.2.2.1 1 rfl (by rw [hm]; decide) PropertyId.Left p (Or.inl rfl)).2

/-- C12: for every state of the handle and every event, of any id, whose
target is not the handle, ProcessEvent leaves the handle as it was
(`initialised`, both targets and the anchor included), leaves every element as
it was, and makes the call of the base class `Element::ProcessEvent` and no
other: no property is written and no event is dispatched. -/
theorem C12_other_target_ignored (h : ElementHandle A) (w : World A) (event : Event)
    (htarget : event.target ≠ some h.self) :
    (h.ProcessEvent w event).1 = h ∧
    (h.ProcessEvent w event).2.elements = w.elements ∧
    h.callsOf w event = [Call.Element_ProcessEvent event] ∧
    (∀ (e : ElementRef) (i : PropertyId) (p : Property A),
      Call.SetProperty e i p ∉ h.callsOf w event) ∧
    (∀ (source : ElementRef) (id : EventId) (parameters : Dictionary),
      Call.DispatchEvent source id parameters ∉ h.callsOf w event) := by
  have hcalls := callsOf_not_Drag h w event (Or.inl htarget)
  rw [hcalls, ProcessEvent_not_target h w event htarget]
  refine ⟨rfl, rfl, rfl, ?_, ?_⟩
  · intro e i p hmem
    cases List.mem_singleton.1 hmem
  · intro source id parameters hmem
    cases List.mem_singleton.1 hmem

/-- C12, on an example: the handle bound to `box1` receives a drag-start whose
target is its child, element 5, and keeps its anchor. -/
theorem C12_other_target_ignored_witness :
    dragstartOnChild.target ≠ some (handle0.ProcessEvent sizeBox1 dragAt40).1.self ∧
    ((handle0.ProcessEvent sizeBox1 dragAt40).1.ProcessEvent sizeBox1 dragstartOnChild).1
      = (handle0.ProcessEvent sizeBox1 dragAt40).1 ∧
    (handle0.ProcessEvent sizeBox1 dragAt40).1.callsOf sizeBox1 dragstartOnChild
      = [Call.Element_ProcessEvent dragstartOnChild] :=
  ⟨by decide,
   (C12_other_target_ignored ratArith (handle0.ProcessEvent sizeBox1 dragAt40).1 sizeBox1
      dragstartOnChild (by decide)).1,
   (C12_other_target_ignored ratArith (handle0.ProcessEvent sizeBox1 dragAt40).1 sizeBox1
      dragstartOnChild (by decide)).2.2.1⟩

/-- C14: for every state of the handle and every Dragstart event targeted at
the handle, ProcessEvent sets `drag_start` to (`mouse_x`, `mouse_y`), an absent
parameter read as 0; sets `move_original_position` to the offset position of
the move target if there is one and leaves it unchanged if there is none;
sets `size_original_size` to the content size of the size target if there is
one and leaves it unchanged if there is none; leaves every element as it
was; and makes the call of the base class and no other, so that no property
is written and no event dispatched. The targets are those the handle holds
once the lazy initialisation of this event has run. -/
theorem C14_dragstart_captures (h : ElementHandle A) (w : World A) (event : Event)
    (htarget : event.target = some h.self) (hid : event.id = EventId.Dragstart) :
    (h.ProcessEvent w event).1.drag_start
      = ⟨(event.parameters.lookup "mouse_x").getD 0,
         (event.parameters.lookup "mouse_y").getD 0⟩ ∧
    (∀ t, (h.ProcessEvent w event).1.move_target = some t →
      (h.ProcessEvent w event).1.move_original_position
        = ⟨(w.elements t).offset_left, (w.elements t).offset_top⟩) ∧
    ((h.ProcessEvent w event).1.move_target = none →
      (h.ProcessEvent w event).1.move_original_position = h.move_original_position) ∧
    (∀ t, (h.ProcessEvent w event).1.size_target = some t →
      (h.ProcessEvent w event).1.size_original_size = (w.elements t).box.content) ∧
    ((h.ProcessEvent w event).1.size_target = none →
      (h.ProcessEvent w event).1.size_original_size = h.size_original_size) ∧
    (h.ProcessEvent w event).2.elements = w.elements ∧
    h.callsOf w event = [Call.Element_ProcessEvent event] := by
  have hcalls := callsOf_not_Drag h w event (Or.inr (by rw [hid]; decide))
  rw [hcalls, ProcessEvent_Dragstart h w event htarget hid]
  have hf := Dragstart_fields (LazyInitialisation h w) (w.Element_ProcessEvent event) event
  have hm := Dragstart_move_original_position (LazyInitialisation h w)
    (w.Element_ProcessEvent event) event
  have hs := Dragstart_size_original_size (LazyInitialisation h w)
    (w.Element_ProcessEvent event) event
  obtain ⟨-, ha2, ha3⟩ := LazyInitialisation_anchor h w
  show (Dragstart (LazyInitialisation h w) (w.Element_ProcessEvent event) event).drag_start = _ ∧
    (∀ t, (Dragstart (LazyInitialisation h w) (w.Element_ProcessEvent event) event).move_target
        = some t →
      (Dragstart (LazyInitialisation h w) (w.Element_ProcessEvent event)
        event).move_original_position = _) ∧
    ((Dragstart (LazyInitialisation h w) (w.Element_ProcessEvent event) event).move_target
        = none →
      (Dragstart (LazyInitialisation h w) (w.Element_ProcessEvent event)
        event).move_original_position = _) ∧
    (∀ t, (Dragstart (LazyInitialisation h w) (w.Element_ProcessEvent event) event).size_target
        = some t →
      (Dragstart (LazyInitialisation h w) (w.Element_ProcessEvent event)
        event).size_original_size = _) ∧
    ((Dragstart (LazyInitialisation h w) (w.Element_ProcessEvent event) event).size_target
        = none →
      (Dragstart (LazyInitialisation h w) (w.Element_ProcessEvent event)
        event).size_original_size = _) ∧
    (w.Element_ProcessEvent event).elements = w.elements ∧
    [Call.Element_ProcessEvent event] = [Call.Element_ProcessEvent event]
  rw [hf.2.2.1, hf.2.2.2.1, hf.2.2.2.2, hm, hs]
  refine ⟨rfl, ?_, ?_, ?_, ?_, rfl, rfl⟩
  · intro t ht
    rw [ht]
    rfl
  · intro ht
    rw [ht]
    exact ha2
  · intro t ht
    rw [ht]
    rfl
  · intro ht
    rw [ht]
    exact ha3

/-- C14, on an example: the fresh handle of `box1` receives a drag-start that
carries `mouse_y = 4` only; the pointer captured is (0, 4), the size captured
is the content size of `box1`, and the position anchor is unchanged. -/
theorem C14_dragstart_captures_witness :
    (handle0.ProcessEvent sizeBox1 dragstartNoX).1.drag_start = ⟨0, 4⟩ ∧
    (handle0.ProcessEvent sizeBox1 dragstartNoX).1.size_target = some 1 ∧
    (handle0.ProcessEvent sizeBox1 dragstartNoX).1.size_original_size
      = (sizeBox1.elements 1).box.content ∧
    (handle0.ProcessEvent sizeBox1 dragstartNoX).1.move_original_position
      = handle0.move_original_position ∧
    handle0.callsOf sizeBox1 dragstartNoX = [Call.Element_ProcessEvent dragstartNoX] :=
  ⟨(C14_dragstart_captures ratArith handle0 sizeBox1 dragstartNoX rfl rfl).1,
   rfl,
   (C14_dragstart_captures ratArith handle0 sizeBox1 dragstartNoX rfl rfl).2.2.2.1 1 rfl,
   (C14_dragstart_captures ratArith handle0 sizeBox1 dragstartNoX rfl rfl).2.2.1 rfl,
   (C14_dragstart_captures ratArith handle0 sizeBox1 dragstartNoX rfl rfl).2.2.2.2.2.2⟩

/-- C15: the constructor leaves the handle with `initialised` false and both
targets null, and in every state that the constructor followed by any
sequence of OnAttributeChange and ProcessEvent calls produces, in any worlds,
`initialised = false` implies that `move_target` and `size_target` are both
null. -/
theorem C15_unresolved_has_no_target (self : ElementRef) (p q : Vector2f A) (w : World A)
    (steps : List (Step A)) :
    ((ElementHandle.new self p q w).1.initialised = false ∧
     (ElementHandle.new self p q w).1.move_target = none ∧
     (ElementHandle.new self p q w).1.size_target = none) ∧
    (((ElementHandle.new self p q w).1.run steps).initialised = false →
      ((ElementHandle.new self p q w).1.run steps).move_target = none ∧
      ((ElementHandle.new self p q w).1.run steps).size_target = none) := by
  have hnew : (ElementHandle.new self p q w).1.initialised = false ∧
      (ElementHandle.new self p q w).1.move_target = none ∧
      (ElementHandle.new self p q w).1.size_target = none := ⟨rfl, rfl, rfl⟩
  refine ⟨hnew, ?_⟩
  intro hi
  exact unresolved_run steps _ (fun _ => hnew.2) hi

/-- C15, on an example: the handle that was bound to `box1` and then told
that "move_target" changed is not initialised and holds no target. -/
theorem C15_unresolved_has_no_target_witness :
    (ElementHandle.new 0 ⟨(0 : ℚ), (0 : ℚ)⟩ ⟨(0 : ℚ), (0 : ℚ)⟩ sizeBox1).1.run
        [Step.ProcessEvent moveBox1 dragstartAt10,
         Step.OnAttributeChange moveBox1 ["move_target"]] = rebound ∧
    rebound.initialised = false ∧
    rebound.move_target = none ∧ rebound.size_target = none :=
  ⟨rfl, rfl,
   (C15_unresolved_has_no_target ratArith 0 ⟨(0 : ℚ), (0 : ℚ)⟩ ⟨(0 : ℚ), (0 : ℚ)⟩ sizeBox1
      [Step.ProcessEvent moveBox1 dragstartAt10,
       Step.OnAttributeChange moveBox1 ["move_target"]]).2 rfl⟩

/-- C13: for every Drag event targeted at the handle: if the handle holds no
move target, no Left or Top is written on any element; if it holds no size
target, only Left and Top are written, so no Width, Height or margin on any
element; and for a second handle `g` with the same identity and the same
`drag_start`, the writes of Left and Top are the same as soon as the two
handles agree on the move target and on `move_original_position`, whatever
their size targets are, and the writes of Width, Height and margins are the
same as soon as they agree on the size target and on `size_original_size`,
whatever their move targets are. The targets are those the handle holds once
the lazy initialisation of this event has run. -/
theorem C13_move_resize_independent (h g : ElementHandle A) (w : World A) (event : Event)
    (htarget : event.target = some h.self) (hid : event.id = EventId.Drag) :
    ((h.ProcessEvent w event).1.move_target = none →
      ∀ (e : ElementRef) (i : PropertyId) (p : Property A),
        Call.SetProperty e i p ∈ h.callsOf w event →
          i ≠ PropertyId.Left ∧ i ≠ PropertyId.Top) ∧
    ((h.ProcessEvent w event).1.size_target = none →
      ∀ (e : ElementRef) (i : PropertyId) (p : Property A),
        Call.SetProperty e i p ∈ h.callsOf w event →
          i = PropertyId.Left ∨ i = PropertyId.Top) ∧
    (g.self = h.self → g.drag_start = h.drag_start →
      ((g.ProcessEvent w event).1.move_target = (h.ProcessEvent w event).1.move_target →
        g.move_original_position = h.move_original_position →
        (g.callsOf w event).filter Call.isMoveWrite
          = (h.callsOf w event).filter Call.isMoveWrite) ∧
      ((g.ProcessEvent w event).1.size_target = (h.ProcessEvent w event).1.size_target →
        g.size_original_size = h.size_original_size →
        (g.callsOf w event).filter Call.isSizeWrite
          = (h.callsOf w event).filter Call.isSizeWrite)) := by
  have hh : (h.ProcessEvent w event).1 = LazyInitialisation h w := by
    rw [ProcessEvent_Drag h w event htarget hid]
  rw [hh]
  refine ⟨?_, ?_, ?_⟩
  · intro hnone e i p hmem
    rw [callsOf_Drag h w event htarget hid] at hmem
    simp only [List.mem_cons, List.mem_append, List.mem_singleton, List.not_mem_nil,
      or_false, mem_moveWrites, mem_sizeWrites, mem_marginWrite, hnone] at hmem
    rcases hmem with hmem | ⟨t, hb, -⟩ | ⟨t, -, ⟨edge, -, hmem⟩ | hmem | hmem⟩ | hmem
    · cases hmem
    · cases hb
    · injection hmem with _ e2 _
      subst e2
      exact ⟨(marginProperty_ne edge).1, (marginProperty_ne edge).2.1⟩
    · injection hmem with _ e2 _
      subst e2
      exact ⟨by decide, by decide⟩
    · injection hmem with _ e2 _
      subst e2
      exact ⟨by decide, by decide⟩
    · cases hmem
  · intro hnone e i p hmem
    rw [callsOf_Drag h w event htarget hid] at hmem
    simp only [List.mem_cons, List.mem_append, List.mem_singleton, List.not_mem_nil,
      or_false, mem_moveWrites, mem_sizeWrites, mem_marginWrite, hnone] at hmem
    rcases hmem with hmem | ⟨t, -, hmem | hmem⟩ | ⟨t, hb, -⟩ | hmem
    · cases hmem
    · injection hmem with _ e2 _
      exact Or.inl e2
    · injection hmem with _ e2 _
      exact Or.inr e2
    · cases hb
    · cases hmem
  · intro hself hstart
    have gtarget : event.target = some g.self := by rw [hself]; exact htarget
    have hg : (g.ProcessEvent w event).1 = LazyInitialisation g w := by
      rw [ProcessEvent_Drag g w event gtarget hid]
    rw [hg, filter_isMoveWrite_callsOf_Drag h w event htarget hid,
      filter_isMoveWrite_callsOf_Drag g w event gtarget hid,
      filter_isSizeWrite_callsOf_Drag h w event htarget hid,
      filter_isSizeWrite_callsOf_Drag g w event gtarget hid, hstart]
    obtain ⟨-, ha2, ha3⟩ := LazyInitialisation_anchor h w
    obtain ⟨-, ga2, ga3⟩ := LazyInitialisation_anchor g w
    constructor
    · intro ht hp
      exact moveWrites_congr _ _ _ _ ht (ga2.trans (hp.trans ha2.symm))
    · intro ht hp
      exact sizeWrites_congr _ _ _ _ _ ht (ga3.trans (hp.trans ha3.symm))

/-- C13, on an example: the handle of `box1`, which has a size target only,
writes no Left and no Top when dragged. -/
theorem C13_move_resize_independent_witness :
    (handle0.ProcessEvent sizeBox1 dragAt40).1.move_target = none ∧
    (handle0.ProcessEvent sizeBox1 dragAt40).1.size_target = some 1 ∧
    ∀ (e : ElementRef) (i : PropertyId) (p : Property ratArith),
      Call.SetProperty e i p ∈ handle0.callsOf sizeBox1 dragAt40 →
        i ≠ PropertyId.Left ∧ i ≠ PropertyId.Top :=
  ⟨rfl, rfl,
   (C13_move_resize_independent ratArith handle0 handle0 sizeBox1 dragAt40 rfl rfl).1 rfl⟩

/-- C11, as stated, fails in two ways. (1) A drag arrives with no drag-start
before it: the fresh handle resolves its move target to element 1 and writes
Left from the anchor the constructor left, (0, 0), although the offset of
element 1 is 20. (2) A rebind falls between the drag-start and the drag: the
handle captures the offset (20, 30) of element 1, "move_target" is reported as
changed, and the next drag resolves the move target to element 3 and writes
its Left from the offset 20 captured on element 1, although the offset of
element 3 is 200 in both documents. -/
theorem C11_anchor_from_target_counterexample :
    ((handle0.ProcessEvent (gallery "box1") dragAt40).1.move_target = some 1 ∧
     Call.SetProperty 1 PropertyId.Left (movedPosition ratArith (0 : ℚ) 40)
       ∈ handle0.callsOf (gallery "box1") dragAt40 ∧
     ((gallery "box1").elements 1).offset_left = (20 : ℚ)) ∧
    (grabbed.move_target = some 1 ∧
     grabbed.move_original_position.x = ((gallery "box1").elements 1).offset_left ∧
     (regrabbed.ProcessEvent (gallery "box3") dragAt40).1.move_target = some 3 ∧
     Call.SetProperty 3 PropertyId.Left
         (movedPosition ratArith ((gallery "box1").elements 1).offset_left 30)
       ∈ regrabbed.callsOf (gallery "box3") dragAt40 ∧
     ((gallery "box1").elements 3).offset_left = (200 : ℚ) ∧
     ((gallery "box3").elements 3).offset_left = (200 : ℚ) ∧
     movedPosition ratArith ((gallery "box1").elements 1).offset_left 30
       ≠ movedPosition ratArith ((gallery "box1").elements 3).offset_left 30) := by
  refine ⟨⟨rfl, ?_, rfl⟩, rfl, rfl, rfl, ?_, rfl, rfl, ?_⟩
  · rw [callsOf_Drag handle0 (gallery "box1") dragAt40 rfl rfl]
    refine List.mem_cons_of_mem _ (List.mem_append_left _ ?_)
    rw [mem_moveWrites]
    exact ⟨1, rfl, Or.inl rfl⟩
  · rw [callsOf_Drag regrabbed (gallery "box3") dragAt40 rfl rfl]
    refine List.mem_cons_of_mem _ (List.mem_append_left _ ?_)
    rw [mem_moveWrites]
    exact ⟨3, rfl, Or.inl rfl⟩
  · intro hc
    have h1 : ratArith.RealToInteger (ratArith.add (20 : ℚ) (ratArith.ofInt 30))
        = ratArith.RealToInteger (ratArith.add (200 : ℚ) (ratArith.ofInt 30)) := by
      injection hc with hc1
      injection hc1
    simp [ratArith] at h1
    norm_num at h1

/-- C11, amended: take a drag-start on the handle after which the handle is
initialised, then any calls none of which reports "move_target" or
"size_target" as changed, then a Drag event on the handle. The handle is
still initialised and holds the targets it held after the first drag-start,
and there is a drag-start of the sequence, targeted at the handle, such that
every Left, Top, Width or Height the Drag event writes on an element `e` is
computed from the pointer of that drag-start and from the offset position,
respectively the content size, that `e` itself had when that drag-start was
processed. -/
theorem C11_anchor_from_target (h : ElementHandle A) (w : World A) (start : Event)
    (steps : List (Step A)) (w' : World A) (drag : Event)
    (hstart_target : start.target = some h.self) (hstart_id : start.id = EventId.Dragstart)
    (hinitialised : (h.ProcessEvent w start).1.initialised = true)
    (hsteps : ∀ s ∈ steps, s.isRebind = false)
    (hdrag_target : drag.target = some h.self) (hdrag_id : drag.id = EventId.Drag) :
    (((h.ProcessEvent w start).1.run steps).initialised = true ∧
     ((h.ProcessEvent w start).1.run steps).move_target
       = (h.ProcessEvent w start).1.move_target ∧
     ((h.ProcessEvent w start).1.run steps).size_target
       = (h.ProcessEvent w start).1.size_target) ∧
    ∃ (wc : World A) (capture : Event),
      Step.ProcessEvent wc capture ∈ Step.ProcessEvent w start :: steps ∧
      capture.target = some h.self ∧ capture.id = EventId.Dragstart ∧
      ∀ (e : ElementRef) (i : PropertyId) (p : Property A),
        Call.SetProperty e i p ∈ ((h.ProcessEvent w start).1.run steps).callsOf w' drag →
        (i = PropertyId.Left → p = ⟨Variant.INT (A.RealToInteger
          (A.add (wc.elements e).offset_left
            (A.ofInt (drag.GetParameter "mouse_x" 0 - capture.GetParameter "mouse_x" 0)))),
          Property.Unit.PX⟩) ∧
        (i = PropertyId.Top → p = ⟨Variant.INT (A.RealToInteger
          (A.add (wc.elements e).offset_top
            (A.ofInt (drag.GetParameter "mouse_y" 0 - capture.GetParameter "mouse_y" 0)))),
          Property.Unit.PX⟩) ∧
        (i = PropertyId.Width → p = ⟨Variant.FLOAT (Math.Max A (A.ofInt (A.RealToInteger
          (A.add (wc.elements e).box.content.x
            (A.ofInt (drag.GetParameter "mouse_x" 0 - capture.GetParameter "mouse_x" 0)))))
          (A.ofInt 0)), Property.Unit.PX⟩) ∧
        (i = PropertyId.Height → p = ⟨Variant.FLOAT (Math.Max A (A.ofInt (A.RealToInteger
          (A.add (wc.elements e).box.content.y
            (A.ofInt (drag.GetParameter "mouse_y" 0 - capture.GetParameter "mouse_y" 0)))))
          (A.ofInt 0)), Property.Unit.PX⟩) := by
  have hself1 : (h.ProcessEvent w start).1.self = h.self := ProcessEvent_self h w start
  have hbase : CapturedIn (h.ProcessEvent w start).1 [Step.ProcessEvent w start] := by
    refine ⟨w, start, List.mem_singleton.2 rfl, by rw [hself1]; exact hstart_target,
      hstart_id, ?_⟩
    rw [ProcessEvent_Dragstart h w start hstart_target hstart_id]
    exact Dragstart_CapturedAt (LazyInitialisation h w) (w.Element_ProcessEvent start) start
  obtain ⟨ri, rm, rs, rc⟩ := captured_run steps [Step.ProcessEvent w start]
    (h.ProcessEvent w start).1 hinitialised hbase hsteps
  refine ⟨⟨ri, rm, rs⟩, ?_⟩
  have hself := (run_self steps (h.ProcessEvent w start).1).trans hself1
  generalize (h.ProcessEvent w start).1.run steps = g at ri rc hself ⊢
  obtain ⟨wc, capture, hmem, hct, hcid, hstartp, hmove, hsize⟩ := rc
  rw [hself] at hct
  refine ⟨wc, capture, by simpa using hmem, hct, hcid, ?_⟩
  intro e i p hcall
  have gtarget : drag.target = some g.self := by rw [hself]; exact hdrag_target
  rw [callsOf_Drag g w' drag gtarget hdrag_id, LazyInitialisation_of_initialised g w' ri,
    hstartp] at hcall
  simp only [List.mem_cons, List.mem_append, List.mem_singleton, List.not_mem_nil,
    or_false, mem_moveWrites, mem_sizeWrites, mem_marginWrite] at hcall
  rcases hcall with hcall | ⟨t, hb, hcall | hcall⟩ |
    ⟨t, hb, ⟨edge, -, hcall⟩ | hcall | hcall⟩ | hcall
  · cases hcall
  · injection hcall with e1 e2 e3
    subst e1 e2 e3
    rw [hmove _ hb]
    exact ⟨fun _ => rfl, fun hi => absurd hi (by decide), fun hi => absurd hi (by decide),
      fun hi => absurd hi (by decide)⟩
  · injection hcall with e1 e2 e3
    subst e1 e2 e3
    rw [hmove _ hb]
    exact ⟨fun hi => absurd hi (by decide), fun _ => rfl, fun hi => absurd hi (by decide),
      fun hi => absurd hi (by decide)⟩
  · injection hcall with e1 e2 e3
    subst e1 e2 e3
    obtain ⟨hL, hT, hW, hH⟩ := marginProperty_ne edge
    exact ⟨fun hi => absurd hi hL, fun hi => absurd hi hT, fun hi => absurd hi hW,
      fun hi => absurd hi hH⟩
  · injection hcall with e1 e2 e3
    subst e1 e2 e3
    rw [hsize _ hb]
    exact ⟨fun hi => absurd hi (by decide), fun hi => absurd hi (by decide), fun _ => rfl,
      fun hi => absurd hi (by decide)⟩
  · injection hcall with e1 e2 e3
    subst e1 e2 e3
    rw [hsize _ hb]
    exact ⟨fun hi => absurd hi (by decide), fun hi => absurd hi (by decide),
      fun hi => absurd hi (by decide), fun _ => rfl⟩
  · cases hcall

/-- C11, amended, on an example: the handle of `box1` is grabbed at (10, 10),
an attribute other than the two targets is reported as changed, and the handle
is dragged: it still holds element 1 as size target. -/
theorem C11_anchor_from_target_witness :
    (handle0.ProcessEvent sizeBox1 dragstartAt10).1.initialised = true ∧
    (Step.OnAttributeChange sizeBox1 ["class"] : Step ratArith).isRebind = false ∧
    ((handle0.ProcessEvent sizeBox1 dragstartAt10).1.run
        [Step.OnAttributeChange sizeBox1 ["class"]]).size_target = some 1 ∧
    (((handle0.ProcessEvent sizeBox1 dragstartAt10).1.run
        [Step.OnAttributeChange sizeBox1 ["class"]]).initialised = true ∧
     ((handle0.ProcessEvent sizeBox1 dragstartAt10).1.run
        [Step.OnAttributeChange sizeBox1 ["class"]]).move_target
       = (handle0.ProcessEvent sizeBox1 dragstartAt10).1.move_target ∧
     ((handle0.ProcessEvent sizeBox1 dragstartAt10).1.run
        [Step.OnAttributeChange sizeBox1 ["class"]]).size_target
       = (handle0.ProcessEvent sizeBox1 dragstartAt10).1.size_target) :=
  ⟨rfl, by decide, rfl,
   (C11_anchor_from_target ratArith handle0 sizeBox1 dragstartAt10
      [Step.OnAttributeChange sizeBox1 ["class"]] sizeBox1 dragAt40 rfl rfl rfl
      (by intro s hs; rw [List.mem_singleton.1 hs]; decide) rfl rfl).1⟩

end Claims

end Core
end Rocket
